import Mathlib

/-!
Verification development for the `marg-sensor-filter` repository.

The repository ships a generated header `src/autogen.h` declaring two
double-precision kernels, `gradient_descent` and `madgwick`, for IMU
orientation estimation.  The header contains declarations only, so the
algorithm bodies below are modelled from the specification (sections 4.1,
4.2 and 7), over the real numbers; the declaration-level facts (argument
order, return channel) are embedded directly from the header text.
-/

noncomputable section

/-- Three-component double-precision vector of the data model (acceleration,
magnetic field or angular rate in the device frame). -/
@[ext] structure Vec3 where
  x : ℝ
  y : ℝ
  z : ℝ

/-- Four-component quaternion of the data model, components `q0..q3`. -/
@[ext] structure Quat where
  q0 : ℝ
  q1 : ℝ
  q2 : ℝ
  q3 : ℝ

instance : Zero Vec3 := ⟨⟨0, 0, 0⟩⟩

instance : Add Vec3 := ⟨fun u v => ⟨u.x + v.x, u.y + v.y, u.z + v.z⟩⟩

instance : Sub Vec3 := ⟨fun u v => ⟨u.x - v.x, u.y - v.y, u.z - v.z⟩⟩

instance : SMul ℝ Vec3 := ⟨fun c v => ⟨c * v.x, c * v.y, c * v.z⟩⟩

instance : Zero Quat := ⟨⟨0, 0, 0, 0⟩⟩

instance : Add Quat := ⟨fun p q => ⟨p.q0 + q.q0, p.q1 + q.q1, p.q2 + q.q2, p.q3 + q.q3⟩⟩

instance : Sub Quat := ⟨fun p q => ⟨p.q0 - q.q0, p.q1 - q.q1, p.q2 - q.q2, p.q3 - q.q3⟩⟩

instance : SMul ℝ Quat := ⟨fun c q => ⟨c * q.q0, c * q.q1, c * q.q2, c * q.q3⟩⟩

@[simp] lemma Vec3.zero_x : (0 : Vec3).x = 0 := rfl

@[simp] lemma Vec3.zero_y : (0 : Vec3).y = 0 := rfl

@[simp] lemma Vec3.zero_z : (0 : Vec3).z = 0 := rfl

@[simp] lemma Vec3.add_x (u v : Vec3) : (u + v).x = u.x + v.x := rfl

@[simp] lemma Vec3.add_y (u v : Vec3) : (u + v).y = u.y + v.y := rfl

@[simp] lemma Vec3.add_z (u v : Vec3) : (u + v).z = u.z + v.z := rfl

@[simp] lemma Vec3.sub_x (u v : Vec3) : (u - v).x = u.x - v.x := rfl

@[simp] lemma Vec3.sub_y (u v : Vec3) : (u - v).y = u.y - v.y := rfl

@[simp] lemma Vec3.sub_z (u v : Vec3) : (u - v).z = u.z - v.z := rfl

@[simp] lemma Vec3.smul_x (c : ℝ) (v : Vec3) : (c • v).x = c * v.x := rfl

@[simp] lemma Vec3.smul_y (c : ℝ) (v : Vec3) : (c • v).y = c * v.y := rfl

@[simp] lemma Vec3.smul_z (c : ℝ) (v : Vec3) : (c • v).z = c * v.z := rfl

@[simp] lemma Quat.zero_q0 : (0 : Quat).q0 = 0 := rfl

@[simp] lemma Quat.zero_q1 : (0 : Quat).q1 = 0 := rfl

@[simp] lemma Quat.zero_q2 : (0 : Quat).q2 = 0 := rfl

@[simp] lemma Quat.zero_q3 : (0 : Quat).q3 = 0 := rfl

@[simp] lemma Quat.add_q0 (p q : Quat) : (p + q).q0 = p.q0 + q.q0 := rfl

@[simp] lemma Quat.add_q1 (p q : Quat) : (p + q).q1 = p.q1 + q.q1 := rfl

@[simp] lemma Quat.add_q2 (p q : Quat) : (p + q).q2 = p.q2 + q.q2 := rfl

@[simp] lemma Quat.add_q3 (p q : Quat) : (p + q).q3 = p.q3 + q.q3 := rfl

@[simp] lemma Quat.sub_q0 (p q : Quat) : (p - q).q0 = p.q0 - q.q0 := rfl

@[simp] lemma Quat.sub_q1 (p q : Quat) : (p - q).q1 = p.q1 - q.q1 := rfl

@[simp] lemma Quat.sub_q2 (p q : Quat) : (p - q).q2 = p.q2 - q.q2 := rfl

@[simp] lemma Quat.sub_q3 (p q : Quat) : (p - q).q3 = p.q3 - q.q3 := rfl

@[simp] lemma Quat.smul_q0 (c : ℝ) (q : Quat) : (c • q).q0 = c * q.q0 := rfl

@[simp] lemma Quat.smul_q1 (c : ℝ) (q : Quat) : (c • q).q1 = c * q.q1 := rfl

@[simp] lemma Quat.smul_q2 (c : ℝ) (q : Quat) : (c • q).q2 = c * q.q2 := rfl

@[simp] lemma Quat.smul_q3 (c : ℝ) (q : Quat) : (c • q).q3 = c * q.q3 := rfl

/-- Euclidean dot product on `Vec3`. -/
def vdot (u v : Vec3) : ℝ := u.x * v.x + u.y * v.y + u.z * v.z

/-- Euclidean norm of a `Vec3`. -/
def vnorm (v : Vec3) : ℝ := Real.sqrt (vdot v v)

/-- Normalize a `Vec3` to unit length, guarded: a zero-length vector is
returned unchanged rather than divided by zero. -/
def vnormalize (v : Vec3) : Vec3 :=
  if vnorm v = 0 then v else ⟨v.x / vnorm v, v.y / vnorm v, v.z / vnorm v⟩

/-- Euclidean norm of a quaternion. -/
def qnorm (q : Quat) : ℝ := Real.sqrt (q.q0 ^ 2 + q.q1 ^ 2 + q.q2 ^ 2 + q.q3 ^ 2)

/-- Normalize a quaternion to unit length, guarded: a zero-length quaternion
is returned unchanged rather than divided by zero. -/
def qnormalize (q : Quat) : Quat :=
  if qnorm q = 0 then q
  else ⟨q.q0 / qnorm q, q.q1 / qnorm q, q.q2 / qnorm q, q.q3 / qnorm q⟩

/-- Reference gravity direction in the navigation frame, `ghat = [0,0,1]`. -/
def ghat : Vec3 := ⟨0, 0, 1⟩

/-- Reference magnetic-field vector `[b_x, 0, b_z]` (y component zero by
construction of the reference frame). -/
def bref (b_x b_z : ℝ) : Vec3 := ⟨b_x, 0, b_z⟩

/-- `rotT q v` is `R(q)ᵗ · v`: the reference-frame vector `v` expressed in the
device frame, via the transpose of the standard rotation matrix of `q`. -/
def rotT (q : Quat) (v : Vec3) : Vec3 :=
  ⟨(q.q0 ^ 2 + q.q1 ^ 2 - q.q2 ^ 2 - q.q3 ^ 2) * v.x
     + 2 * (q.q1 * q.q2 + q.q0 * q.q3) * v.y
     + 2 * (q.q1 * q.q3 - q.q0 * q.q2) * v.z,
   2 * (q.q1 * q.q2 - q.q0 * q.q3) * v.x
     + (q.q0 ^ 2 - q.q1 ^ 2 + q.q2 ^ 2 - q.q3 ^ 2) * v.y
     + 2 * (q.q2 * q.q3 + q.q0 * q.q1) * v.z,
   2 * (q.q1 * q.q3 + q.q0 * q.q2) * v.x
     + 2 * (q.q2 * q.q3 - q.q0 * q.q1) * v.y
     + (q.q0 ^ 2 - q.q1 ^ 2 - q.q2 ^ 2 + q.q3 ^ 2) * v.z⟩

/-- Closed-form partial derivative of `rotT q v` with respect to `q.q0`. -/
def rotT_d0 (q : Quat) (v : Vec3) : Vec3 :=
  ⟨2 * q.q0 * v.x + 2 * q.q3 * v.y - 2 * q.q2 * v.z,
   -(2 * q.q3 * v.x) + 2 * q.q0 * v.y + 2 * q.q1 * v.z,
   2 * q.q2 * v.x - 2 * q.q1 * v.y + 2 * q.q0 * v.z⟩

/-- Closed-form partial derivative of `rotT q v` with respect to `q.q1`. -/
def rotT_d1 (q : Quat) (v : Vec3) : Vec3 :=
  ⟨2 * q.q1 * v.x + 2 * q.q2 * v.y + 2 * q.q3 * v.z,
   2 * q.q2 * v.x - 2 * q.q1 * v.y + 2 * q.q0 * v.z,
   2 * q.q3 * v.x - 2 * q.q0 * v.y - 2 * q.q1 * v.z⟩

/-- Closed-form partial derivative of `rotT q v` with respect to `q.q2`. -/
def rotT_d2 (q : Quat) (v : Vec3) : Vec3 :=
  ⟨-(2 * q.q2 * v.x) + 2 * q.q1 * v.y - 2 * q.q0 * v.z,
   2 * q.q1 * v.x + 2 * q.q2 * v.y + 2 * q.q3 * v.z,
   2 * q.q0 * v.x + 2 * q.q3 * v.y - 2 * q.q2 * v.z⟩

/-- Closed-form partial derivative of `rotT q v` with respect to `q.q3`. -/
def rotT_d3 (q : Quat) (v : Vec3) : Vec3 :=
  ⟨-(2 * q.q3 * v.x) + 2 * q.q0 * v.y + 2 * q.q1 * v.z,
   -(2 * q.q0 * v.x) - 2 * q.q3 * v.y + 2 * q.q2 * v.z,
   2 * q.q1 * v.x + 2 * q.q2 * v.y + 2 * q.q3 * v.z⟩

/-- Modelled from the spec (section 4.1; the body of `gradient_descent` is
absent from `src/autogen.h`): the Jacobian-transpose product
`Jᵗ·[f_g; f_b]`, where `f_g = R(q)ᵗ·ghat − normalize a`,
`f_b = R(q)ᵗ·bref − normalize m`, and `J` is the closed-form Jacobian of
`[f_g; f_b]` with respect to `q0..q3`. -/
def gradRaw (a : Vec3) (b_x b_z : ℝ) (m : Vec3) (q : Quat) : Quat :=
  let fg := rotT q ghat - vnormalize a
  let fb := rotT q (bref b_x b_z) - vnormalize m
  ⟨vdot (rotT_d0 q ghat) fg + vdot (rotT_d0 q (bref b_x b_z)) fb,
   vdot (rotT_d1 q ghat) fg + vdot (rotT_d1 q (bref b_x b_z)) fb,
   vdot (rotT_d2 q ghat) fg + vdot (rotT_d2 q (bref b_x b_z)) fb,
   vdot (rotT_d3 q ghat) fg + vdot (rotT_d3 q (bref b_x b_z)) fb⟩

/-- Modelled from the spec (sections 4.1, 4.2 and 7): the shared normalized
gradient-descent correction direction `Δq`.  It is the zero quaternion when
`a` or `m` is the zero vector (sensor dropout: the correction is skipped) or
when the Jacobian-transpose product vanishes (perfect alignment: the
zero-gradient guard). -/
def correctionDir (a : Vec3) (b_x b_z : ℝ) (m : Vec3) (q : Quat) : Quat :=
  if vnorm a = 0 ∨ vnorm m = 0 then 0
  else if qnorm (gradRaw a b_x b_z m q) = 0 then 0
  else qnormalize (gradRaw a b_x b_z m q)

/-- Modelled from the spec (section 4.1; the body of `gradient_descent` is
absent from `src/autogen.h`, which only declares it): one gradient-descent
step `q_new = renormalize (q − alpha · Δq)`, with the degenerate cases
absorbed into `correctionDir`. -/
def gradient_descent (a_x a_y a_z alpha b_x b_z m_x m_y m_z q_0 q_1 q_2 q_3 : ℝ) : Quat :=
  let q : Quat := ⟨q_0, q_1, q_2, q_3⟩
  qnormalize (q - alpha • correctionDir ⟨a_x, a_y, a_z⟩ b_x b_z ⟨m_x, m_y, m_z⟩ q)

/-- Hamilton product of two quaternions. -/
def qmul (p q : Quat) : Quat :=
  ⟨p.q0 * q.q0 - p.q1 * q.q1 - p.q2 * q.q2 - p.q3 * q.q3,
   p.q0 * q.q1 + p.q1 * q.q0 + p.q2 * q.q3 - p.q3 * q.q2,
   p.q0 * q.q2 - p.q1 * q.q3 + p.q2 * q.q0 + p.q3 * q.q1,
   p.q0 * q.q3 + p.q1 * q.q2 - p.q2 * q.q1 + p.q3 * q.q0⟩

/-- Modelled from the spec (section 4.2; the body of `madgwick` is absent
from `src/autogen.h`, which only declares it): one Madgwick AHRS step
`q_new = renormalize (q + (qdot_gyro + qdot_correction) · dt)` with
`qdot_gyro = 0.5 · q ⊗ [0, w_x, w_y, w_z]` and
`qdot_correction = −beta · Δq`. -/
def madgwick (a_x a_y a_z b_x b_z beta dt m_x m_y m_z q_0 q_1 q_2 q_3 w_x w_y w_z : ℝ) : Quat :=
  let q : Quat := ⟨q_0, q_1, q_2, q_3⟩
  let qdotg : Quat := (1 / 2 : ℝ) • qmul q ⟨0, w_x, w_y, w_z⟩
  let corr : Quat := correctionDir ⟨a_x, a_y, a_z⟩ b_x b_z ⟨m_x, m_y, m_z⟩ q
  qnormalize (q + dt • (qdotg + (-beta) • corr))

/-- The misalignment objective `‖f_g‖² + ‖f_b‖²` of the spec (section 8). -/
def alignErr (a : Vec3) (b_x b_z : ℝ) (m : Vec3) (q : Quat) : ℝ :=
  vdot (rotT q ghat - vnormalize a) (rotT q ghat - vnormalize a)
    + vdot (rotT q (bref b_x b_z) - vnormalize m) (rotT q (bref b_x b_z) - vnormalize m)

/-- Embedding of a model quaternion into Mathlib's quaternion algebra. -/
def toHQ (q : Quat) : Quaternion ℝ := ⟨q.q0, q.q1, q.q2, q.q3⟩

lemma qnorm_eq_zero_iff (q : Quat) : qnorm q = 0 ↔ q = 0 := by
  rw [qnorm, Real.sqrt_eq_zero']
  constructor
  · intro h
    have h0 : q.q0 ^ 2 = 0 := by
      nlinarith [sq_nonneg q.q0, sq_nonneg q.q1, sq_nonneg q.q2, sq_nonneg q.q3]
    have h1 : q.q1 ^ 2 = 0 := by
      nlinarith [sq_nonneg q.q0, sq_nonneg q.q1, sq_nonneg q.q2, sq_nonneg q.q3]
    have h2 : q.q2 ^ 2 = 0 := by
      nlinarith [sq_nonneg q.q0, sq_nonneg q.q1, sq_nonneg q.q2, sq_nonneg q.q3]
    have h3 : q.q3 ^ 2 = 0 := by
      nlinarith [sq_nonneg q.q0, sq_nonneg q.q1, sq_nonneg q.q2, sq_nonneg q.q3]
    ext
    · exact (pow_eq_zero_iff (by norm_num : (2 : ℕ) ≠ 0)).mp h0
    · exact (pow_eq_zero_iff (by norm_num : (2 : ℕ) ≠ 0)).mp h1
    · exact (pow_eq_zero_iff (by norm_num : (2 : ℕ) ≠ 0)).mp h2
    · exact (pow_eq_zero_iff (by norm_num : (2 : ℕ) ≠ 0)).mp h3
  · intro h
    subst h
    simp

lemma qnorm_zero : qnorm 0 = 0 := by
  simp [qnorm]

lemma vnorm_zero : vnorm 0 = 0 := by
  simp [vnorm, vdot]

lemma qnorm_qnormalize (v : Quat) (hv : v ≠ 0) : qnorm (qnormalize v) = 1 := by
  have hn : qnorm v ≠ 0 := fun h => hv ((qnorm_eq_zero_iff v).mp h)
  have hS : (0 : ℝ) ≤ v.q0 ^ 2 + v.q1 ^ 2 + v.q2 ^ 2 + v.q3 ^ 2 := by positivity
  have hsq : qnorm v ^ 2 = v.q0 ^ 2 + v.q1 ^ 2 + v.q2 ^ 2 + v.q3 ^ 2 := Real.sq_sqrt hS
  have h2 : qnorm v ^ 2 ≠ 0 := pow_ne_zero 2 hn
  have h1 : (v.q0 / qnorm v) ^ 2 + (v.q1 / qnorm v) ^ 2 + (v.q2 / qnorm v) ^ 2
      + (v.q3 / qnorm v) ^ 2 = 1 := by
    calc (v.q0 / qnorm v) ^ 2 + (v.q1 / qnorm v) ^ 2 + (v.q2 / qnorm v) ^ 2 + (v.q3 / qnorm v) ^ 2
        = (v.q0 ^ 2 + v.q1 ^ 2 + v.q2 ^ 2 + v.q3 ^ 2) / qnorm v ^ 2 := by ring
      _ = qnorm v ^ 2 / qnorm v ^ 2 := by rw [hsq]
      _ = 1 := div_self h2
  rw [qnormalize, if_neg hn]
  show Real.sqrt ((v.q0 / qnorm v) ^ 2 + (v.q1 / qnorm v) ^ 2 + (v.q2 / qnorm v) ^ 2
    + (v.q3 / qnorm v) ^ 2) = 1
  rw [h1, Real.sqrt_one]

lemma qnormalize_of_unit (q : Quat) (h : qnorm q = 1) : qnormalize q = q := by
  have h0 : qnorm q ≠ 0 := by rw [h]; norm_num
  rw [qnormalize, if_neg h0, h]
  ext <;> simp

lemma vnormalize_of_unit (v : Vec3) (h : vnorm v = 1) : vnormalize v = v := by
  have h0 : vnorm v ≠ 0 := by rw [h]; norm_num
  rw [vnormalize, if_neg h0, h]
  ext <;> simp

lemma hasDerivAt_quadratic (A B C x : ℝ) :
    HasDerivAt (fun t : ℝ => A * t ^ 2 + B * t + C) (2 * A * x + B) x := by
  have h1 : HasDerivAt (fun t : ℝ => t ^ 2) (2 * x) x := by
    simpa using hasDerivAt_pow 2 x
  have h2 := ((h1.const_mul A).add ((hasDerivAt_id' x).const_mul B)).add_const C
  have h3 : A * (2 * x) + B * 1 = 2 * A * x + B := by ring
  rw [← h3]
  exact h2

lemma rotT_x_deriv0 (q1 q2 q3 : ℝ) (v : Vec3) (x : ℝ) :
    HasDerivAt (fun t => (rotT ⟨t, q1, q2, q3⟩ v).x) ((rotT_d0 ⟨x, q1, q2, q3⟩ v).x) x := by
  have h := hasDerivAt_quadratic v.x ((rotT_d0 ⟨0, q1, q2, q3⟩ v).x)
    ((rotT ⟨0, q1, q2, q3⟩ v).x) x
  have hf : (fun t => (rotT ⟨t, q1, q2, q3⟩ v).x)
      = fun t => v.x * t ^ 2 + (rotT_d0 ⟨0, q1, q2, q3⟩ v).x * t + (rotT ⟨0, q1, q2, q3⟩ v).x := by
    funext t
    simp only [rotT, rotT_d0]
    ring
  have hd : (rotT_d0 ⟨x, q1, q2, q3⟩ v).x = 2 * v.x * x + (rotT_d0 ⟨0, q1, q2, q3⟩ v).x := by
    simp only [rotT_d0]
    ring
  rw [hf, hd]
  exact h

lemma rotT_y_deriv0 (q1 q2 q3 : ℝ) (v : Vec3) (x : ℝ) :
    HasDerivAt (fun t => (rotT ⟨t, q1, q2, q3⟩ v).y) ((rotT_d0 ⟨x, q1, q2, q3⟩ v).y) x := by
  have h := hasDerivAt_quadratic v.y ((rotT_d0 ⟨0, q1, q2, q3⟩ v).y)
    ((rotT ⟨0, q1, q2, q3⟩ v).y) x
  have hf : (fun t => (rotT ⟨t, q1, q2, q3⟩ v).y)
      = fun t => v.y * t ^ 2 + (rotT_d0 ⟨0, q1, q2, q3⟩ v).y * t + (rotT ⟨0, q1, q2, q3⟩ v).y := by
    funext t
    simp only [rotT, rotT_d0]
    ring
  have hd : (rotT_d0 ⟨x, q1, q2, q3⟩ v).y = 2 * v.y * x + (rotT_d0 ⟨0, q1, q2, q3⟩ v).y := by
    simp only [rotT_d0]
    ring
  rw [hf, hd]
  exact h

lemma rotT_z_deriv0 (q1 q2 q3 : ℝ) (v : Vec3) (x : ℝ) :
    HasDerivAt (fun t => (rotT ⟨t, q1, q2, q3⟩ v).z) ((rotT_d0 ⟨x, q1, q2, q3⟩ v).z) x := by
  have h := hasDerivAt_quadratic v.z ((rotT_d0 ⟨0, q1, q2, q3⟩ v).z)
    ((rotT ⟨0, q1, q2, q3⟩ v).z) x
  have hf : (fun t => (rotT ⟨t, q1, q2, q3⟩ v).z)
      = fun t => v.z * t ^ 2 + (rotT_d0 ⟨0, q1, q2, q3⟩ v).z * t + (rotT ⟨0, q1, q2, q3⟩ v).z := by
    funext t
    simp only [rotT, rotT_d0]
    ring
  have hd : (rotT_d0 ⟨x, q1, q2, q3⟩ v).z = 2 * v.z * x + (rotT_d0 ⟨0, q1, q2, q3⟩ v).z := by
    simp only [rotT_d0]
    ring
  rw [hf, hd]
  exact h

lemma rotT_x_deriv1 (q0 q2 q3 : ℝ) (v : Vec3) (x : ℝ) :
    HasDerivAt (fun t => (rotT ⟨q0, t, q2, q3⟩ v).x) ((rotT_d1 ⟨q0, x, q2, q3⟩ v).x) x := by
  have h := hasDerivAt_quadratic v.x ((rotT_d1 ⟨q0, 0, q2, q3⟩ v).x)
    ((rotT ⟨q0, 0, q2, q3⟩ v).x) x
  have hf : (fun t => (rotT ⟨q0, t, q2, q3⟩ v).x)
      = fun t => v.x * t ^ 2 + (rotT_d1 ⟨q0, 0, q2, q3⟩ v).x * t + (rotT ⟨q0, 0, q2, q3⟩ v).x := by
    funext t
    simp only [rotT, rotT_d1]
    ring
  have hd : (rotT_d1 ⟨q0, x, q2, q3⟩ v).x = 2 * v.x * x + (rotT_d1 ⟨q0, 0, q2, q3⟩ v).x := by
    simp only [rotT_d1]
    ring
  rw [hf, hd]
  exact h

lemma rotT_y_deriv1 (q0 q2 q3 : ℝ) (v : Vec3) (x : ℝ) :
    HasDerivAt (fun t => (rotT ⟨q0, t, q2, q3⟩ v).y) ((rotT_d1 ⟨q0, x, q2, q3⟩ v).y) x := by
  have h := hasDerivAt_quadratic (-v.y) ((rotT_d1 ⟨q0, 0, q2, q3⟩ v).y)
    ((rotT ⟨q0, 0, q2, q3⟩ v).y) x
  have hf : (fun t => (rotT ⟨q0, t, q2, q3⟩ v).y)
      = fun t => -v.y * t ^ 2 + (rotT_d1 ⟨q0, 0, q2, q3⟩ v).y * t + (rotT ⟨q0, 0, q2, q3⟩ v).y := by
    funext t
    simp only [rotT, rotT_d1]
    ring
  have hd : (rotT_d1 ⟨q0, x, q2, q3⟩ v).y = 2 * -v.y * x + (rotT_d1 ⟨q0, 0, q2, q3⟩ v).y := by
    simp only [rotT_d1]
    ring
  rw [hf, hd]
  exact h

lemma rotT_z_deriv1 (q0 q2 q3 : ℝ) (v : Vec3) (x : ℝ) :
    HasDerivAt (fun t => (rotT ⟨q0, t, q2, q3⟩ v).z) ((rotT_d1 ⟨q0, x, q2, q3⟩ v).z) x := by
  have h := hasDerivAt_quadratic (-v.z) ((rotT_d1 ⟨q0, 0, q2, q3⟩ v).z)
    ((rotT ⟨q0, 0, q2, q3⟩ v).z) x
  have hf : (fun t => (rotT ⟨q0, t, q2, q3⟩ v).z)
      = fun t => -v.z * t ^ 2 + (rotT_d1 ⟨q0, 0, q2, q3⟩ v).z * t + (rotT ⟨q0, 0, q2, q3⟩ v).z := by
    funext t
    simp only [rotT, rotT_d1]
    ring
  have hd : (rotT_d1 ⟨q0, x, q2, q3⟩ v).z = 2 * -v.z * x + (rotT_d1 ⟨q0, 0, q2, q3⟩ v).z := by
    simp only [rotT_d1]
    ring
  rw [hf, hd]
  exact h

lemma rotT_x_deriv2 (q0 q1 q3 : ℝ) (v : Vec3) (x : ℝ) :
    HasDerivAt (fun t => (rotT ⟨q0, q1, t, q3⟩ v).x) ((rotT_d2 ⟨q0, q1, x, q3⟩ v).x) x := by
  have h := hasDerivAt_quadratic (-v.x) ((rotT_d2 ⟨q0, q1, 0, q3⟩ v).x)
    ((rotT ⟨q0, q1, 0, q3⟩ v).x) x
  have hf : (fun t => (rotT ⟨q0, q1, t, q3⟩ v).x)
      = fun t => -v.x * t ^ 2 + (rotT_d2 ⟨q0, q1, 0, q3⟩ v).x * t + (rotT ⟨q0, q1, 0, q3⟩ v).x := by
    funext t
    simp only [rotT, rotT_d2]
    ring
  have hd : (rotT_d2 ⟨q0, q1, x, q3⟩ v).x = 2 * -v.x * x + (rotT_d2 ⟨q0, q1, 0, q3⟩ v).x := by
    simp only [rotT_d2]
    ring
  rw [hf, hd]
  exact h

lemma rotT_y_deriv2 (q0 q1 q3 : ℝ) (v : Vec3) (x : ℝ) :
    HasDerivAt (fun t => (rotT ⟨q0, q1, t, q3⟩ v).y) ((rotT_d2 ⟨q0, q1, x, q3⟩ v).y) x := by
  have h := hasDerivAt_quadratic v.y ((rotT_d2 ⟨q0, q1, 0, q3⟩ v).y)
    ((rotT ⟨q0, q1, 0, q3⟩ v).y) x
  have hf : (fun t => (rotT ⟨q0, q1, t, q3⟩ v).y)
      = fun t => v.y * t ^ 2 + (rotT_d2 ⟨q0, q1, 0, q3⟩ v).y * t + (rotT ⟨q0, q1, 0, q3⟩ v).y := by
    funext t
    simp only [rotT, rotT_d2]
    ring
  have hd : (rotT_d2 ⟨q0, q1, x, q3⟩ v).y = 2 * v.y * x + (rotT_d2 ⟨q0, q1, 0, q3⟩ v).y := by
    simp only [rotT_d2]
    ring
  rw [hf, hd]
  exact h

lemma rotT_z_deriv2 (q0 q1 q3 : ℝ) (v : Vec3) (x : ℝ) :
    HasDerivAt (fun t => (rotT ⟨q0, q1, t, q3⟩ v).z) ((rotT_d2 ⟨q0, q1, x, q3⟩ v).z) x := by
  have h := hasDerivAt_quadratic (-v.z) ((rotT_d2 ⟨q0, q1, 0, q3⟩ v).z)
    ((rotT ⟨q0, q1, 0, q3⟩ v).z) x
  have hf : (fun t => (rotT ⟨q0, q1, t, q3⟩ v).z)
      = fun t => -v.z * t ^ 2 + (rotT_d2 ⟨q0, q1, 0, q3⟩ v).z * t + (rotT ⟨q0, q1, 0, q3⟩ v).z := by
    funext t
    simp only [rotT, rotT_d2]
    ring
  have hd : (rotT_d2 ⟨q0, q1, x, q3⟩ v).z = 2 * -v.z * x + (rotT_d2 ⟨q0, q1, 0, q3⟩ v).z := by
    simp only [rotT_d2]
    ring
  rw [hf, hd]
  exact h

lemma rotT_x_deriv3 (q0 q1 q2 : ℝ) (v : Vec3) (x : ℝ) :
    HasDerivAt (fun t => (rotT ⟨q0, q1, q2, t⟩ v).x) ((rotT_d3 ⟨q0, q1, q2, x⟩ v).x) x := by
  have h := hasDerivAt_quadratic (-v.x) ((rotT_d3 ⟨q0, q1, q2, 0⟩ v).x)
    ((rotT ⟨q0, q1, q2, 0⟩ v).x) x
  have hf : (fun t => (rotT ⟨q0, q1, q2, t⟩ v).x)
      = fun t => -v.x * t ^ 2 + (rotT_d3 ⟨q0, q1, q2, 0⟩ v).x * t + (rotT ⟨q0, q1, q2, 0⟩ v).x := by
    funext t
    simp only [rotT, rotT_d3]
    ring
  have hd : (rotT_d3 ⟨q0, q1, q2, x⟩ v).x = 2 * -v.x * x + (rotT_d3 ⟨q0, q1, q2, 0⟩ v).x := by
    simp only [rotT_d3]
    ring
  rw [hf, hd]
  exact h

lemma rotT_y_deriv3 (q0 q1 q2 : ℝ) (v : Vec3) (x : ℝ) :
    HasDerivAt (fun t => (rotT ⟨q0, q1, q2, t⟩ v).y) ((rotT_d3 ⟨q0, q1, q2, x⟩ v).y) x := by
  have h := hasDerivAt_quadratic (-v.y) ((rotT_d3 ⟨q0, q1, q2, 0⟩ v).y)
    ((rotT ⟨q0, q1, q2, 0⟩ v).y) x
  have hf : (fun t => (rotT ⟨q0, q1, q2, t⟩ v).y)
      = fun t => -v.y * t ^ 2 + (rotT_d3 ⟨q0, q1, q2, 0⟩ v).y * t + (rotT ⟨q0, q1, q2, 0⟩ v).y := by
    funext t
    simp only [rotT, rotT_d3]
    ring
  have hd : (rotT_d3 ⟨q0, q1, q2, x⟩ v).y = 2 * -v.y * x + (rotT_d3 ⟨q0, q1, q2, 0⟩ v).y := by
    simp only [rotT_d3]
    ring
  rw [hf, hd]
  exact h

lemma rotT_z_deriv3 (q0 q1 q2 : ℝ) (v : Vec3) (x : ℝ) :
    HasDerivAt (fun t => (rotT ⟨q0, q1, q2, t⟩ v).z) ((rotT_d3 ⟨q0, q1, q2, x⟩ v).z) x := by
  have h := hasDerivAt_quadratic v.z ((rotT_d3 ⟨q0, q1, q2, 0⟩ v).z)
    ((rotT ⟨q0, q1, q2, 0⟩ v).z) x
  have hf : (fun t => (rotT ⟨q0, q1, q2, t⟩ v).z)
      = fun t => v.z * t ^ 2 + (rotT_d3 ⟨q0, q1, q2, 0⟩ v).z * t + (rotT ⟨q0, q1, q2, 0⟩ v).z := by
    funext t
    simp only [rotT, rotT_d3]
    ring
  have hd : (rotT_d3 ⟨q0, q1, q2, x⟩ v).z = 2 * v.z * x + (rotT_d3 ⟨q0, q1, q2, 0⟩ v).z := by
    simp only [rotT_d3]
    ring
  rw [hf, hd]
  exact h

lemma alignErr_deriv0 (a : Vec3) (b_x b_z : ℝ) (m : Vec3) (q : Quat) :
    HasDerivAt (fun t => alignErr a b_x b_z m ⟨t, q.q1, q.q2, q.q3⟩)
      (2 * (gradRaw a b_x b_z m q).q0) q.q0 := by
  obtain ⟨q0, q1, q2, q3⟩ := q
  have hg1 : HasDerivAt (fun t => ((rotT ⟨t, q1, q2, q3⟩ ghat).x - (vnormalize a).x) ^ 2)
      (2 * ((rotT ⟨q0, q1, q2, q3⟩ ghat).x - (vnormalize a).x)
        * (rotT_d0 ⟨q0, q1, q2, q3⟩ ghat).x) q0 := by
    simpa using ((rotT_x_deriv0 q1 q2 q3 ghat q0).sub_const (vnormalize a).x).pow 2
  have hg2 : HasDerivAt (fun t => ((rotT ⟨t, q1, q2, q3⟩ ghat).y - (vnormalize a).y) ^ 2)
      (2 * ((rotT ⟨q0, q1, q2, q3⟩ ghat).y - (vnormalize a).y)
        * (rotT_d0 ⟨q0, q1, q2, q3⟩ ghat).y) q0 := by
    simpa using ((rotT_y_deriv0 q1 q2 q3 ghat q0).sub_const (vnormalize a).y).pow 2
  have hg3 : HasDerivAt (fun t => ((rotT ⟨t, q1, q2, q3⟩ ghat).z - (vnormalize a).z) ^ 2)
      (2 * ((rotT ⟨q0, q1, q2, q3⟩ ghat).z - (vnormalize a).z)
        * (rotT_d0 ⟨q0, q1, q2, q3⟩ ghat).z) q0 := by
    simpa using ((rotT_z_deriv0 q1 q2 q3 ghat q0).sub_const (vnormalize a).z).pow 2
  have hb1 : HasDerivAt (fun t => ((rotT ⟨t, q1, q2, q3⟩ (bref b_x b_z)).x - (vnormalize m).x) ^ 2)
      (2 * ((rotT ⟨q0, q1, q2, q3⟩ (bref b_x b_z)).x - (vnormalize m).x)
        * (rotT_d0 ⟨q0, q1, q2, q3⟩ (bref b_x b_z)).x) q0 := by
    simpa using ((rotT_x_deriv0 q1 q2 q3 (bref b_x b_z) q0).sub_const (vnormalize m).x).pow 2
  have hb2 : HasDerivAt (fun t => ((rotT ⟨t, q1, q2, q3⟩ (bref b_x b_z)).y - (vnormalize m).y) ^ 2)
      (2 * ((rotT ⟨q0, q1, q2, q3⟩ (bref b_x b_z)).y - (vnormalize m).y)
        * (rotT_d0 ⟨q0, q1, q2, q3⟩ (bref b_x b_z)).y) q0 := by
    simpa using ((rotT_y_deriv0 q1 q2 q3 (bref b_x b_z) q0).sub_const (vnormalize m).y).pow 2
  have hb3 : HasDerivAt (fun t => ((rotT ⟨t, q1, q2, q3⟩ (bref b_x b_z)).z - (vnormalize m).z) ^ 2)
      (2 * ((rotT ⟨q0, q1, q2, q3⟩ (bref b_x b_z)).z - (vnormalize m).z)
        * (rotT_d0 ⟨q0, q1, q2, q3⟩ (bref b_x b_z)).z) q0 := by
    simpa using ((rotT_z_deriv0 q1 q2 q3 (bref b_x b_z) q0).sub_const (vnormalize m).z).pow 2
  have heq : (fun t => alignErr a b_x b_z m ⟨t, q1, q2, q3⟩) =ᶠ[nhds q0]
      (fun t => ((rotT ⟨t, q1, q2, q3⟩ ghat).x - (vnormalize a).x) ^ 2
        + ((rotT ⟨t, q1, q2, q3⟩ ghat).y - (vnormalize a).y) ^ 2
        + ((rotT ⟨t, q1, q2, q3⟩ ghat).z - (vnormalize a).z) ^ 2
        + ((rotT ⟨t, q1, q2, q3⟩ (bref b_x b_z)).x - (vnormalize m).x) ^ 2
        + ((rotT ⟨t, q1, q2, q3⟩ (bref b_x b_z)).y - (vnormalize m).y) ^ 2
        + ((rotT ⟨t, q1, q2, q3⟩ (bref b_x b_z)).z - (vnormalize m).z) ^ 2) :=
    Filter.Eventually.of_forall fun t => by
      simp only [alignErr, vdot, Vec3.sub_x, Vec3.sub_y, Vec3.sub_z]
      ring
  have hgoal := (((((hg1.add hg2).add hg3).add hb1).add hb2).add hb3).congr_of_eventuallyEq heq
  have hval : 2 * ((rotT ⟨q0, q1, q2, q3⟩ ghat).x - (vnormalize a).x)
          * (rotT_d0 ⟨q0, q1, q2, q3⟩ ghat).x
        + 2 * ((rotT ⟨q0, q1, q2, q3⟩ ghat).y - (vnormalize a).y)
          * (rotT_d0 ⟨q0, q1, q2, q3⟩ ghat).y
        + 2 * ((rotT ⟨q0, q1, q2, q3⟩ ghat).z - (vnormalize a).z)
          * (rotT_d0 ⟨q0, q1, q2, q3⟩ ghat).z
        + 2 * ((rotT ⟨q0, q1, q2, q3⟩ (bref b_x b_z)).x - (vnormalize m).x)
          * (rotT_d0 ⟨q0, q1, q2, q3⟩ (bref b_x b_z)).x
        + 2 * ((rotT ⟨q0, q1, q2, q3⟩ (bref b_x b_z)).y - (vnormalize m).y)
          * (rotT_d0 ⟨q0, q1, q2, q3⟩ (bref b_x b_z)).y
        + 2 * ((rotT ⟨q0, q1, q2, q3⟩ (bref b_x b_z)).z - (vnormalize m).z)
          * (rotT_d0 ⟨q0, q1, q2, q3⟩ (bref b_x b_z)).z
      = 2 * (gradRaw a b_x b_z m ⟨q0, q1, q2, q3⟩).q0 := by
    simp only [gradRaw, vdot, Vec3.sub_x, Vec3.sub_y, Vec3.sub_z]
    ring
  exact hval ▸ hgoal

lemma alignErr_deriv1 (a : Vec3) (b_x b_z : ℝ) (m : Vec3) (q : Quat) :
    HasDerivAt (fun t => alignErr a b_x b_z m ⟨q.q0, t, q.q2, q.q3⟩)
      (2 * (gradRaw a b_x b_z m q).q1) q.q1 := by
  obtain ⟨q0, q1, q2, q3⟩ := q
  have hg1 : HasDerivAt (fun t => ((rotT ⟨q0, t, q2, q3⟩ ghat).x - (vnormalize a).x) ^ 2)
      (2 * ((rotT ⟨q0, q1, q2, q3⟩ ghat).x - (vnormalize a).x)
        * (rotT_d1 ⟨q0, q1, q2, q3⟩ ghat).x) q1 := by
    simpa using ((rotT_x_deriv1 q0 q2 q3 ghat q1).sub_const (vnormalize a).x).pow 2
  have hg2 : HasDerivAt (fun t => ((rotT ⟨q0, t, q2, q3⟩ ghat).y - (vnormalize a).y) ^ 2)
      (2 * ((rotT ⟨q0, q1, q2, q3⟩ ghat).y - (vnormalize a).y)
        * (rotT_d1 ⟨q0, q1, q2, q3⟩ ghat).y) q1 := by
    simpa using ((rotT_y_deriv1 q0 q2 q3 ghat q1).sub_const (vnormalize a).y).pow 2
  have hg3 : HasDerivAt (fun t => ((rotT ⟨q0, t, q2, q3⟩ ghat).z - (vnormalize a).z) ^ 2)
      (2 * ((rotT ⟨q0, q1, q2, q3⟩ ghat).z - (vnormalize a).z)
        * (rotT_d1 ⟨q0, q1, q2, q3⟩ ghat).z) q1 := by
    simpa using ((rotT_z_deriv1 q0 q2 q3 ghat q1).sub_const (vnormalize a).z).pow 2
  have hb1 : HasDerivAt (fun t => ((rotT ⟨q0, t, q2, q3⟩ (bref b_x b_z)).x - (vnormalize m).x) ^ 2)
      (2 * ((rotT ⟨q0, q1, q2, q3⟩ (bref b_x b_z)).x - (vnormalize m).x)
        * (rotT_d1 ⟨q0, q1, q2, q3⟩ (bref b_x b_z)).x) q1 := by
    simpa using ((rotT_x_deriv1 q0 q2 q3 (bref b_x b_z) q1).sub_const (vnormalize m).x).pow 2
  have hb2 : HasDerivAt (fun t => ((rotT ⟨q0, t, q2, q3⟩ (bref b_x b_z)).y - (vnormalize m).y) ^ 2)
      (2 * ((rotT ⟨q0, q1, q2, q3⟩ (bref b_x b_z)).y - (vnormalize m).y)
        * (rotT_d1 ⟨q0, q1, q2, q3⟩ (bref b_x b_z)).y) q1 := by
    simpa using ((rotT_y_deriv1 q0 q2 q3 (bref b_x b_z) q1).sub_const (vnormalize m).y).pow 2
  have hb3 : HasDerivAt (fun t => ((rotT ⟨q0, t, q2, q3⟩ (bref b_x b_z)).z - (vnormalize m).z) ^ 2)
      (2 * ((rotT ⟨q0, q1, q2, q3⟩ (bref b_x b_z)).z - (vnormalize m).z)
        * (rotT_d1 ⟨q0, q1, q2, q3⟩ (bref b_x b_z)).z) q1 := by
    simpa using ((rotT_z_deriv1 q0 q2 q3 (bref b_x b_z) q1).sub_const (vnormalize m).z).pow 2
  have heq : (fun t => alignErr a b_x b_z m ⟨q0, t, q2, q3⟩) =ᶠ[nhds q1]
      (fun t => ((rotT ⟨q0, t, q2, q3⟩ ghat).x - (vnormalize a).x) ^ 2
        + ((rotT ⟨q0, t, q2, q3⟩ ghat).y - (vnormalize a).y) ^ 2
        + ((rotT ⟨q0, t, q2, q3⟩ ghat).z - (vnormalize a).z) ^ 2
        + ((rotT ⟨q0, t, q2, q3⟩ (bref b_x b_z)).x - (vnormalize m).x) ^ 2
        + ((rotT ⟨q0, t, q2, q3⟩ (bref b_x b_z)).y - (vnormalize m).y) ^ 2
        + ((rotT ⟨q0, t, q2, q3⟩ (bref b_x b_z)).z - (vnormalize m).z) ^ 2) :=
    Filter.Eventually.of_forall fun t => by
      simp only [alignErr, vdot, Vec3.sub_x, Vec3.sub_y, Vec3.sub_z]
      ring
  have hgoal := (((((hg1.add hg2).add hg3).add hb1).add hb2).add hb3).congr_of_eventuallyEq heq
  have hval : 2 * ((rotT ⟨q0, q1, q2, q3⟩ ghat).x - (vnormalize a).x)
          * (rotT_d1 ⟨q0, q1, q2, q3⟩ ghat).x
        + 2 * ((rotT ⟨q0, q1, q2, q3⟩ ghat).y - (vnormalize a).y)
          * (rotT_d1 ⟨q0, q1, q2, q3⟩ ghat).y
        + 2 * ((rotT ⟨q0, q1, q2, q3⟩ ghat).z - (vnormalize a).z)
          * (rotT_d1 ⟨q0, q1, q2, q3⟩ ghat).z
        + 2 * ((rotT ⟨q0, q1, q2, q3⟩ (bref b_x b_z)).x - (vnormalize m).x)
          * (rotT_d1 ⟨q0, q1, q2, q3⟩ (bref b_x b_z)).x
        + 2 * ((rotT ⟨q0, q1, q2, q3⟩ (bref b_x b_z)).y - (vnormalize m).y)
          * (rotT_d1 ⟨q0, q1, q2, q3⟩ (bref b_x b_z)).y
        + 2 * ((rotT ⟨q0, q1, q2, q3⟩ (bref b_x b_z)).z - (vnormalize m).z)
          * (rotT_d1 ⟨q0, q1, q2, q3⟩ (bref b_x b_z)).z
      = 2 * (gradRaw a b_x b_z m ⟨q0, q1, q2, q3⟩).q1 := by
    simp only [gradRaw, vdot, Vec3.sub_x, Vec3.sub_y, Vec3.sub_z]
    ring
  exact hval ▸ hgoal

lemma alignErr_deriv2 (a : Vec3) (b_x b_z : ℝ) (m : Vec3) (q : Quat) :
    HasDerivAt (fun t => alignErr a b_x b_z m ⟨q.q0, q.q1, t, q.q3⟩)
      (2 * (gradRaw a b_x b_z m q).q2) q.q2 := by
  obtain ⟨q0, q1, q2, q3⟩ := q
  have hg1 : HasDerivAt (fun t => ((rotT ⟨q0, q1, t, q3⟩ ghat).x - (vnormalize a).x) ^ 2)
      (2 * ((rotT ⟨q0, q1, q2, q3⟩ ghat).x - (vnormalize a).x)
        * (rotT_d2 ⟨q0, q1, q2, q3⟩ ghat).x) q2 := by
    simpa using ((rotT_x_deriv2 q0 q1 q3 ghat q2).sub_const (vnormalize a).x).pow 2
  have hg2 : HasDerivAt (fun t => ((rotT ⟨q0, q1, t, q3⟩ ghat).y - (vnormalize a).y) ^ 2)
      (2 * ((rotT ⟨q0, q1, q2, q3⟩ ghat).y - (vnormalize a).y)
        * (rotT_d2 ⟨q0, q1, q2, q3⟩ ghat).y) q2 := by
    simpa using ((rotT_y_deriv2 q0 q1 q3 ghat q2).sub_const (vnormalize a).y).pow 2
  have hg3 : HasDerivAt (fun t => ((rotT ⟨q0, q1, t, q3⟩ ghat).z - (vnormalize a).z) ^ 2)
      (2 * ((rotT ⟨q0, q1, q2, q3⟩ ghat).z - (vnormalize a).z)
        * (rotT_d2 ⟨q0, q1, q2, q3⟩ ghat).z) q2 := by
    simpa using ((rotT_z_deriv2 q0 q1 q3 ghat q2).sub_const (vnormalize a).z).pow 2
  have hb1 : HasDerivAt (fun t => ((rotT ⟨q0, q1, t, q3⟩ (bref b_x b_z)).x - (vnormalize m).x) ^ 2)
      (2 * ((rotT ⟨q0, q1, q2, q3⟩ (bref b_x b_z)).x - (vnormalize m).x)
        * (rotT_d2 ⟨q0, q1, q2, q3⟩ (bref b_x b_z)).x) q2 := by
    simpa using ((rotT_x_deriv2 q0 q1 q3 (bref b_x b_z) q2).sub_const (vnormalize m).x).pow 2
  have hb2 : HasDerivAt (fun t => ((rotT ⟨q0, q1, t, q3⟩ (bref b_x b_z)).y - (vnormalize m).y) ^ 2)
      (2 * ((rotT ⟨q0, q1, q2, q3⟩ (bref b_x b_z)).y - (vnormalize m).y)
        * (rotT_d2 ⟨q0, q1, q2, q3⟩ (bref b_x b_z)).y) q2 := by
    simpa using ((rotT_y_deriv2 q0 q1 q3 (bref b_x b_z) q2).sub_const (vnormalize m).y).pow 2
  have hb3 : HasDerivAt (fun t => ((rotT ⟨q0, q1, t, q3⟩ (bref b_x b_z)).z - (vnormalize m).z) ^ 2)
      (2 * ((rotT ⟨q0, q1, q2, q3⟩ (bref b_x b_z)).z - (vnormalize m).z)
        * (rotT_d2 ⟨q0, q1, q2, q3⟩ (bref b_x b_z)).z) q2 := by
    simpa using ((rotT_z_deriv2 q0 q1 q3 (bref b_x b_z) q2).sub_const (vnormalize m).z).pow 2
  have heq : (fun t => alignErr a b_x b_z m ⟨q0, q1, t, q3⟩) =ᶠ[nhds q2]
      (fun t => ((rotT ⟨q0, q1, t, q3⟩ ghat).x - (vnormalize a).x) ^ 2
        + ((rotT ⟨q0, q1, t, q3⟩ ghat).y - (vnormalize a).y) ^ 2
        + ((rotT ⟨q0, q1, t, q3⟩ ghat).z - (vnormalize a).z) ^ 2
        + ((rotT ⟨q0, q1, t, q3⟩ (bref b_x b_z)).x - (vnormalize m).x) ^ 2
        + ((rotT ⟨q0, q1, t, q3⟩ (bref b_x b_z)).y - (vnormalize m).y) ^ 2
        + ((rotT ⟨q0, q1, t, q3⟩ (bref b_x b_z)).z - (vnormalize m).z) ^ 2) :=
    Filter.Eventually.of_forall fun t => by
      simp only [alignErr, vdot, Vec3.sub_x, Vec3.sub_y, Vec3.sub_z]
      ring
  have hgoal := (((((hg1.add hg2).add hg3).add hb1).add hb2).add hb3).congr_of_eventuallyEq heq
  have hval : 2 * ((rotT ⟨q0, q1, q2, q3⟩ ghat).x - (vnormalize a).x)
          * (rotT_d2 ⟨q0, q1, q2, q3⟩ ghat).x
        + 2 * ((rotT ⟨q0, q1, q2, q3⟩ ghat).y - (vnormalize a).y)
          * (rotT_d2 ⟨q0, q1, q2, q3⟩ ghat).y
        + 2 * ((rotT ⟨q0, q1, q2, q3⟩ ghat).z - (vnormalize a).z)
          * (rotT_d2 ⟨q0, q1, q2, q3⟩ ghat).z
        + 2 * ((rotT ⟨q0, q1, q2, q3⟩ (bref b_x b_z)).x - (vnormalize m).x)
          * (rotT_d2 ⟨q0, q1, q2, q3⟩ (bref b_x b_z)).x
        + 2 * ((rotT ⟨q0, q1, q2, q3⟩ (bref b_x b_z)).y - (vnormalize m).y)
          * (rotT_d2 ⟨q0, q1, q2, q3⟩ (bref b_x b_z)).y
        + 2 * ((rotT ⟨q0, q1, q2, q3⟩ (bref b_x b_z)).z - (vnormalize m).z)
          * (rotT_d2 ⟨q0, q1, q2, q3⟩ (bref b_x b_z)).z
      = 2 * (gradRaw a b_x b_z m ⟨q0, q1, q2, q3⟩).q2 := by
    simp only [gradRaw, vdot, Vec3.sub_x, Vec3.sub_y, Vec3.sub_z]
    ring
  exact hval ▸ hgoal

lemma alignErr_deriv3 (a : Vec3) (b_x b_z : ℝ) (m : Vec3) (q : Quat) :
    HasDerivAt (fun t => alignErr a b_x b_z m ⟨q.q0, q.q1, q.q2, t⟩)
      (2 * (gradRaw a b_x b_z m q).q3) q.q3 := by
  obtain ⟨q0, q1, q2, q3⟩ := q
  have hg1 : HasDerivAt (fun t => ((rotT ⟨q0, q1, q2, t⟩ ghat).x - (vnormalize a).x) ^ 2)
      (2 * ((rotT ⟨q0, q1, q2, q3⟩ ghat).x - (vnormalize a).x)
        * (rotT_d3 ⟨q0, q1, q2, q3⟩ ghat).x) q3 := by
    simpa using ((rotT_x_deriv3 q0 q1 q2 ghat q3).sub_const (vnormalize a).x).pow 2
  have hg2 : HasDerivAt (fun t => ((rotT ⟨q0, q1, q2, t⟩ ghat).y - (vnormalize a).y) ^ 2)
      (2 * ((rotT ⟨q0, q1, q2, q3⟩ ghat).y - (vnormalize a).y)
        * (rotT_d3 ⟨q0, q1, q2, q3⟩ ghat).y) q3 := by
    simpa using ((rotT_y_deriv3 q0 q1 q2 ghat q3).sub_const (vnormalize a).y).pow 2
  have hg3 : HasDerivAt (fun t => ((rotT ⟨q0, q1, q2, t⟩ ghat).z - (vnormalize a).z) ^ 2)
      (2 * ((rotT ⟨q0, q1, q2, q3⟩ ghat).z - (vnormalize a).z)
        * (rotT_d3 ⟨q0, q1, q2, q3⟩ ghat).z) q3 := by
    simpa using ((rotT_z_deriv3 q0 q1 q2 ghat q3).sub_const (vnormalize a).z).pow 2
  have hb1 : HasDerivAt (fun t => ((rotT ⟨q0, q1, q2, t⟩ (bref b_x b_z)).x - (vnormalize m).x) ^ 2)
      (2 * ((rotT ⟨q0, q1, q2, q3⟩ (bref b_x b_z)).x - (vnormalize m).x)
        * (rotT_d3 ⟨q0, q1, q2, q3⟩ (bref b_x b_z)).x) q3 := by
    simpa using ((rotT_x_deriv3 q0 q1 q2 (bref b_x b_z) q3).sub_const (vnormalize m).x).pow 2
  have hb2 : HasDerivAt (fun t => ((rotT ⟨q0, q1, q2, t⟩ (bref b_x b_z)).y - (vnormalize m).y) ^ 2)
      (2 * ((rotT ⟨q0, q1, q2, q3⟩ (bref b_x b_z)).y - (vnormalize m).y)
        * (rotT_d3 ⟨q0, q1, q2, q3⟩ (bref b_x b_z)).y) q3 := by
    simpa using ((rotT_y_deriv3 q0 q1 q2 (bref b_x b_z) q3).sub_const (vnormalize m).y).pow 2
  have hb3 : HasDerivAt (fun t => ((rotT ⟨q0, q1, q2, t⟩ (bref b_x b_z)).z - (vnormalize m).z) ^ 2)
      (2 * ((rotT ⟨q0, q1, q2, q3⟩ (bref b_x b_z)).z - (vnormalize m).z)
        * (rotT_d3 ⟨q0, q1, q2, q3⟩ (bref b_x b_z)).z) q3 := by
    simpa using ((rotT_z_deriv3 q0 q1 q2 (bref b_x b_z) q3).sub_const (vnormalize m).z).pow 2
  have heq : (fun t => alignErr a b_x b_z m ⟨q0, q1, q2, t⟩) =ᶠ[nhds q3]
      (fun t => ((rotT ⟨q0, q1, q2, t⟩ ghat).x - (vnormalize a).x) ^ 2
        + ((rotT ⟨q0, q1, q2, t⟩ ghat).y - (vnormalize a).y) ^ 2
        + ((rotT ⟨q0, q1, q2, t⟩ ghat).z - (vnormalize a).z) ^ 2
        + ((rotT ⟨q0, q1, q2, t⟩ (bref b_x b_z)).x - (vnormalize m).x) ^ 2
        + ((rotT ⟨q0, q1, q2, t⟩ (bref b_x b_z)).y - (vnormalize m).y) ^ 2
        + ((rotT ⟨q0, q1, q2, t⟩ (bref b_x b_z)).z - (vnormalize m).z) ^ 2) :=
    Filter.Eventually.of_forall fun t => by
      simp only [alignErr, vdot, Vec3.sub_x, Vec3.sub_y, Vec3.sub_z]
      ring
  have hgoal := (((((hg1.add hg2).add hg3).add hb1).add hb2).add hb3).congr_of_eventuallyEq heq
  have hval : 2 * ((rotT ⟨q0, q1, q2, q3⟩ ghat).x - (vnormalize a).x)
          * (rotT_d3 ⟨q0, q1, q2, q3⟩ ghat).x
        + 2 * ((rotT ⟨q0, q1, q2, q3⟩ ghat).y - (vnormalize a).y)
          * (rotT_d3 ⟨q0, q1, q2, q3⟩ ghat).y
        + 2 * ((rotT ⟨q0, q1, q2, q3⟩ ghat).z - (vnormalize a).z)
          * (rotT_d3 ⟨q0, q1, q2, q3⟩ ghat).z
        + 2 * ((rotT ⟨q0, q1, q2, q3⟩ (bref b_x b_z)).x - (vnormalize m).x)
          * (rotT_d3 ⟨q0, q1, q2, q3⟩ (bref b_x b_z)).x
        + 2 * ((rotT ⟨q0, q1, q2, q3⟩ (bref b_x b_z)).y - (vnormalize m).y)
          * (rotT_d3 ⟨q0, q1, q2, q3⟩ (bref b_x b_z)).y
        + 2 * ((rotT ⟨q0, q1, q2, q3⟩ (bref b_x b_z)).z - (vnormalize m).z)
          * (rotT_d3 ⟨q0, q1, q2, q3⟩ (bref b_x b_z)).z
      = 2 * (gradRaw a b_x b_z m ⟨q0, q1, q2, q3⟩).q3 := by
    simp only [gradRaw, vdot, Vec3.sub_x, Vec3.sub_y, Vec3.sub_z]
    ring
  exact hval ▸ hgoal

lemma sqrt_eval (a b : ℝ) (hb : 0 ≤ b) (h : a = b ^ 2) : Real.sqrt a = b := by
  rw [h, Real.sqrt_sq hb]

lemma qnorm_id : qnorm ⟨1, 0, 0, 0⟩ = 1 := by
  rw [qnorm]
  norm_num [Real.sqrt_one]

lemma vnormalize_az : vnormalize ⟨0, 0, 1⟩ = ⟨0, 0, 1⟩ :=
  vnormalize_of_unit _ (by norm_num [vnorm, vdot, Real.sqrt_one])

lemma vnormalize_an : vnormalize ⟨0, 0, -1⟩ = ⟨0, 0, -1⟩ :=
  vnormalize_of_unit _ (by norm_num [vnorm, vdot, Real.sqrt_one])

lemma vnormalize_mx : vnormalize ⟨1, 0, 0⟩ = ⟨1, 0, 0⟩ :=
  vnormalize_of_unit _ (by norm_num [vnorm, vdot, Real.sqrt_one])

lemma vnormalize_mn : vnormalize ⟨-1, 0, 0⟩ = ⟨-1, 0, 0⟩ :=
  vnormalize_of_unit _ (by norm_num [vnorm, vdot, Real.sqrt_one])

lemma grad_e1 : gradRaw ⟨0, 0, -1⟩ 1 0 ⟨-1, 0, 0⟩ ⟨1, 0, 0, 0⟩ = ⟨8, 0, 0, 0⟩ := by
  simp only [gradRaw, vnormalize_an, vnormalize_mn, rotT, rotT_d0, rotT_d1, rotT_d2, rotT_d3,
    vdot, ghat, bref, Vec3.sub_x, Vec3.sub_y, Vec3.sub_z]
  ext <;> norm_num

lemma grad_e2 : gradRaw ⟨0, 0, 1⟩ 1 0 ⟨1, 0, 0⟩ ⟨1, 0, 0, 0⟩ = 0 := by
  simp only [gradRaw, vnormalize_az, vnormalize_mx, rotT, rotT_d0, rotT_d1, rotT_d2, rotT_d3,
    vdot, ghat, bref, Vec3.sub_x, Vec3.sub_y, Vec3.sub_z]
  ext <;> norm_num

lemma grad_e6 : gradRaw ⟨0, 0, 1⟩ 2 0 ⟨1, 0, 0⟩ ⟨1, 0, 0, 0⟩ = ⟨4, 0, 0, 0⟩ := by
  simp only [gradRaw, vnormalize_az, vnormalize_mx, rotT, rotT_d0, rotT_d1, rotT_d2, rotT_d3,
    vdot, ghat, bref, Vec3.sub_x, Vec3.sub_y, Vec3.sub_z]
  ext <;> norm_num

lemma vnorm_val_az : vnorm ⟨0, 0, 1⟩ = 1 := by norm_num [vnorm, vdot, Real.sqrt_one]

lemma vnorm_val_an : vnorm ⟨0, 0, -1⟩ = 1 := by norm_num [vnorm, vdot, Real.sqrt_one]

lemma vnorm_val_mx : vnorm ⟨1, 0, 0⟩ = 1 := by norm_num [vnorm, vdot, Real.sqrt_one]

lemma vnorm_val_mn : vnorm ⟨-1, 0, 0⟩ = 1 := by norm_num [vnorm, vdot, Real.sqrt_one]

lemma qnorm_8 : qnorm ⟨8, 0, 0, 0⟩ = 8 := by
  rw [qnorm]
  exact sqrt_eval _ 8 (by norm_num) (by norm_num)

lemma qnorm_4 : qnorm ⟨4, 0, 0, 0⟩ = 4 := by
  rw [qnorm]
  exact sqrt_eval _ 4 (by norm_num) (by norm_num)

lemma qnorm_half : qnorm ⟨1 / 2, 0, 0, 0⟩ = 1 / 2 := by
  rw [qnorm]
  exact sqrt_eval _ (1 / 2) (by norm_num) (by norm_num)

lemma qnorm_neg1 : qnorm ⟨-1, 0, 0, 0⟩ = 1 := by
  rw [qnorm]
  exact sqrt_eval _ 1 (by norm_num) (by norm_num)

lemma qnormalize_8 : qnormalize ⟨8, 0, 0, 0⟩ = ⟨1, 0, 0, 0⟩ := by
  rw [qnormalize, if_neg (by norm_num [qnorm_8]), qnorm_8]
  ext <;> norm_num

lemma qnormalize_4 : qnormalize ⟨4, 0, 0, 0⟩ = ⟨1, 0, 0, 0⟩ := by
  rw [qnormalize, if_neg (by norm_num [qnorm_4]), qnorm_4]
  ext <;> norm_num

lemma qnormalize_half : qnormalize ⟨1 / 2, 0, 0, 0⟩ = ⟨1, 0, 0, 0⟩ := by
  rw [qnormalize, if_neg (by norm_num [qnorm_half]), qnorm_half]
  ext <;> norm_num

lemma qnormalize_neg1 : qnormalize ⟨-1, 0, 0, 0⟩ = ⟨-1, 0, 0, 0⟩ :=
  qnormalize_of_unit _ qnorm_neg1

lemma qnormalize_zero : qnormalize 0 = 0 := by
  rw [qnormalize, if_pos qnorm_zero]

lemma corr_dropout (a : Vec3) (b_x b_z : ℝ) (m : Vec3) (q : Quat)
    (h : vnorm a = 0 ∨ vnorm m = 0) : correctionDir a b_x b_z m q = 0 := by
  rw [correctionDir, if_pos h]

lemma corr_e1 : correctionDir ⟨0, 0, -1⟩ 1 0 ⟨-1, 0, 0⟩ ⟨1, 0, 0, 0⟩ = ⟨1, 0, 0, 0⟩ := by
  have h1 : ¬(vnorm (⟨0, 0, -1⟩ : Vec3) = 0 ∨ vnorm (⟨-1, 0, 0⟩ : Vec3) = 0) := by
    simp [vnorm_val_an, vnorm_val_mn]
  have h2 : ¬ qnorm (⟨8, 0, 0, 0⟩ : Quat) = 0 := by norm_num [qnorm_8]
  rw [correctionDir, grad_e1, if_neg h1, if_neg h2, qnormalize_8]

lemma corr_e2 : correctionDir ⟨0, 0, 1⟩ 1 0 ⟨1, 0, 0⟩ ⟨1, 0, 0, 0⟩ = 0 := by
  have h1 : ¬(vnorm (⟨0, 0, 1⟩ : Vec3) = 0 ∨ vnorm (⟨1, 0, 0⟩ : Vec3) = 0) := by
    simp [vnorm_val_az, vnorm_val_mx]
  rw [correctionDir, grad_e2, if_neg h1, if_pos qnorm_zero]

lemma corr_e6 : correctionDir ⟨0, 0, 1⟩ 2 0 ⟨1, 0, 0⟩ ⟨1, 0, 0, 0⟩ = ⟨1, 0, 0, 0⟩ := by
  have h1 : ¬(vnorm (⟨0, 0, 1⟩ : Vec3) = 0 ∨ vnorm (⟨1, 0, 0⟩ : Vec3) = 0) := by
    simp [vnorm_val_az, vnorm_val_mx]
  have h2 : ¬ qnorm (⟨4, 0, 0, 0⟩ : Quat) = 0 := by norm_num [qnorm_4]
  rw [correctionDir, grad_e6, if_neg h1, if_neg h2, qnormalize_4]

lemma gd_c1 : gradient_descent 0 0 (-1) 1 1 0 (-1) 0 0 1 0 0 0 = 0 := by
  simp only [gradient_descent]
  rw [corr_e1]
  have h : (⟨1, 0, 0, 0⟩ : Quat) - (1 : ℝ) • ⟨1, 0, 0, 0⟩ = 0 := by ext <;> norm_num
  rw [h, qnormalize_zero]

lemma gd_c7 : gradient_descent 0 0 (-1) (1 / 2) 1 0 (-1) 0 0 1 0 0 0 = ⟨1, 0, 0, 0⟩ := by
  simp only [gradient_descent]
  rw [corr_e1]
  have h : (⟨1, 0, 0, 0⟩ : Quat) - (1 / 2 : ℝ) • ⟨1, 0, 0, 0⟩ = ⟨1 / 2, 0, 0, 0⟩ := by
    ext <;> norm_num
  rw [h, qnormalize_half]

lemma gd_c6 : gradient_descent 0 0 1 2 2 0 1 0 0 1 0 0 0 = ⟨-1, 0, 0, 0⟩ := by
  simp only [gradient_descent]
  rw [corr_e6]
  have h : (⟨1, 0, 0, 0⟩ : Quat) - (2 : ℝ) • ⟨1, 0, 0, 0⟩ = ⟨-1, 0, 0, 0⟩ := by
    ext <;> norm_num
  rw [h, qnormalize_neg1]

lemma alignErr_e1 : alignErr ⟨0, 0, -1⟩ 1 0 ⟨-1, 0, 0⟩ ⟨1, 0, 0, 0⟩ = 8 := by
  simp only [alignErr, vnormalize_an, vnormalize_mn, rotT, vdot, ghat, bref,
    Vec3.sub_x, Vec3.sub_y, Vec3.sub_z]
  norm_num

lemma qsmul_zero (c : ℝ) : c • (0 : Quat) = 0 := by
  ext <;> simp

lemma qsub_zero (q : Quat) : q - 0 = q := by
  ext <;> simp

lemma qadd_zero (q : Quat) : q + 0 = q := by
  ext <;> simp

lemma vec_sub_self (v : Vec3) : v - v = 0 := by
  ext <;> simp

lemma vdot_zero_right (u : Vec3) : vdot u 0 = 0 := by
  simp [vdot]

lemma quat_mk_ne_zero_q0 (c q1 q2 q3 : ℝ) (hc : c ≠ 0) : (⟨c, q1, q2, q3⟩ : Quat) ≠ 0 := by
  intro h
  exact hc (by simpa using congrArg Quat.q0 h)

lemma vec3_mk_ne_zero_x (x y z : ℝ) (hx : x ≠ 0) : (⟨x, y, z⟩ : Vec3) ≠ 0 := by
  intro h
  exact hx (by simpa using congrArg Vec3.x h)

lemma vec3_mk_ne_zero_z (x y z : ℝ) (hz : z ≠ 0) : (⟨x, y, z⟩ : Vec3) ≠ 0 := by
  intro h
  exact hz (by simpa using congrArg Vec3.z h)

lemma vdot_rotT (q : Quat) (v : Vec3) :
    vdot (rotT q v) (rotT q v)
      = (q.q0 ^ 2 + q.q1 ^ 2 + q.q2 ^ 2 + q.q3 ^ 2) ^ 2 * vdot v v := by
  simp only [rotT, vdot]
  ring

lemma unit_sum_sq (q : Quat) (hq : qnorm q = 1) :
    q.q0 ^ 2 + q.q1 ^ 2 + q.q2 ^ 2 + q.q3 ^ 2 = 1 := by
  have hS : (0 : ℝ) ≤ q.q0 ^ 2 + q.q1 ^ 2 + q.q2 ^ 2 + q.q3 ^ 2 := by positivity
  calc q.q0 ^ 2 + q.q1 ^ 2 + q.q2 ^ 2 + q.q3 ^ 2
      = Real.sqrt (q.q0 ^ 2 + q.q1 ^ 2 + q.q2 ^ 2 + q.q3 ^ 2) ^ 2 := (Real.sq_sqrt hS).symm
    _ = qnorm q ^ 2 := by rw [qnorm]
    _ = 1 := by rw [hq]; norm_num

lemma vnorm_rotT_unit (q : Quat) (hq : qnorm q = 1) (v : Vec3) :
    vnorm (rotT q v) = vnorm v := by
  rw [vnorm, vnorm, vdot_rotT, unit_sum_sq q hq, one_pow, one_mul]

lemma vnorm_ghat : vnorm ghat = 1 := by
  norm_num [vnorm, vdot, ghat, Real.sqrt_one]

lemma vdot_self_eq_norm_sq (u : Vec3) : vdot u u = vnorm u ^ 2 := by
  have hS : (0 : ℝ) ≤ vdot u u :=
    add_nonneg (add_nonneg (mul_self_nonneg _) (mul_self_nonneg _)) (mul_self_nonneg _)
  rw [vnorm, Real.sq_sqrt hS]

lemma vnormalize_smul_unit (c : ℝ) (hc : 0 < c) (u : Vec3) (hu : vnorm u = 1) :
    vnormalize (c • u) = u := by
  have hc' : c ≠ 0 := ne_of_gt hc
  have hdot : vdot (c • u) (c • u) = c ^ 2 * vdot u u := by
    simp only [vdot, Vec3.smul_x, Vec3.smul_y, Vec3.smul_z]
    ring
  have hnorm : vnorm (c • u) = c := by
    rw [vnorm, hdot, vdot_self_eq_norm_sq, hu]
    exact sqrt_eval _ c (le_of_lt hc) (by norm_num)
  rw [vnormalize, if_neg (by rw [hnorm]; exact hc'), hnorm]
  ext <;> simp only [Vec3.smul_x, Vec3.smul_y, Vec3.smul_z] <;>
    exact mul_div_cancel_left₀ _ hc'

/-- C5: if the Jacobian-transpose product `Jᵗ·[f_g; f_b]` is the zero vector,
`gradient_descent` returns `q` unchanged (normalized); the normalization of the
step direction is guarded against division by zero — a zero-norm quaternion is
returned unchanged by `qnormalize` rather than divided. -/
theorem gradient_descent_zero_gradient_guard (a m : Vec3) (alpha b_x b_z : ℝ) (q : Quat)
    (hg : gradRaw a b_x b_z m q = 0) :
    gradient_descent a.x a.y a.z alpha b_x b_z m.x m.y m.z q.q0 q.q1 q.q2 q.q3 = qnormalize q
    ∧ (∀ p : Quat, qnorm p = 0 → qnormalize p = p) := by
  constructor
  · have hcorr : correctionDir a b_x b_z m q = 0 := by
      rw [correctionDir]
      by_cases hA : vnorm a = 0 ∨ vnorm m = 0
      · rw [if_pos hA]
      · rw [if_neg hA, hg, if_pos qnorm_zero]
    show qnormalize (q - alpha • correctionDir a b_x b_z m q) = qnormalize q
    rw [hcorr, qsmul_zero, qsub_zero]
  · intro p hp
    rw [qnormalize, if_pos hp]

/-- Witness for C5 at the aligned input `q = (1,0,0,0)`, `a = (0,0,1)`,
`m = (1,0,0)`, `b = (1,0)`, `alpha = 1/10`, where the gradient vanishes. -/
theorem gradient_descent_zero_gradient_guard_witness :
    gradient_descent 0 0 1 (1 / 10) 1 0 1 0 0 1 0 0 0 = qnormalize ⟨1, 0, 0, 0⟩
    ∧ (∀ p : Quat, qnorm p = 0 → qnormalize p = p) :=
  gradient_descent_zero_gradient_guard ⟨0, 0, 1⟩ ⟨1, 0, 0⟩ (1 / 10) 1 0 ⟨1, 0, 0, 0⟩ grad_e2

/-- C6 (amended): if `a` is exactly parallel to the predicted gravity direction
and `m` exactly parallel to the predicted reference field under `q`, and the
reference field `(b_x, 0, b_z)` has unit norm (so the residuals vanish
exactly), then `gradient_descent` returns `q` unchanged. -/
theorem gradient_descent_aligned_fixed_point (a m : Vec3) (alpha b_x b_z : ℝ) (q : Quat)
    (hq : qnorm q = 1) (hb : vnorm (bref b_x b_z) = 1)
    (ha : ∃ c : ℝ, 0 < c ∧ a = c • rotT q ghat)
    (hm : ∃ c : ℝ, 0 < c ∧ m = c • rotT q (bref b_x b_z)) :
    gradient_descent a.x a.y a.z alpha b_x b_z m.x m.y m.z q.q0 q.q1 q.q2 q.q3 = q := by
  obtain ⟨c, hc, hac⟩ := ha
  obtain ⟨d, hd, hmd⟩ := hm
  have hna : vnormalize a = rotT q ghat := by
    rw [hac]
    exact vnormalize_smul_unit c hc _ (by rw [vnorm_rotT_unit q hq]; exact vnorm_ghat)
  have hnm : vnormalize m = rotT q (bref b_x b_z) := by
    rw [hmd]
    exact vnormalize_smul_unit d hd _ (by rw [vnorm_rotT_unit q hq]; exact hb)
  have hgrad : gradRaw a b_x b_z m q = 0 := by
    ext <;> simp [gradRaw, hna, hnm, vec_sub_self, vdot_zero_right]
  have hcorr : correctionDir a b_x b_z m q = 0 := by
    rw [correctionDir]
    by_cases hA : vnorm a = 0 ∨ vnorm m = 0
    · rw [if_pos hA]
    · rw [if_neg hA, hgrad, if_pos qnorm_zero]
  show qnormalize (q - alpha • correctionDir a b_x b_z m q) = q
  rw [hcorr, qsmul_zero, qsub_zero]
  exact qnormalize_of_unit q hq

/-- Witness for C6 (amended) at the concrete scenario of the spec:
`q = (1,0,0,0)`, `a = (0,0,1)`, `m = (1,0,0)`, `b_x = 1`, `b_z = 0`,
`alpha = 1/10`; the output is exactly `(1,0,0,0)`. -/
theorem gradient_descent_aligned_fixed_point_witness :
    gradient_descent 0 0 1 (1 / 10) 1 0 1 0 0 1 0 0 0 = ⟨1, 0, 0, 0⟩ :=
  gradient_descent_aligned_fixed_point ⟨0, 0, 1⟩ ⟨1, 0, 0⟩ (1 / 10) 1 0 ⟨1, 0, 0, 0⟩
    qnorm_id vnorm_val_mx
    ⟨(1 : ℝ), by norm_num, by ext <;> norm_num [rotT, ghat]⟩
    ⟨(1 : ℝ), by norm_num, by ext <;> norm_num [rotT, bref]⟩

/-- Counterexample for C6 as stated: at `q = (1,0,0,0)` (unit norm),
`a = (0,0,1)` parallel to the predicted gravity, `m = (1,0,0)` parallel to the
predicted reference field `(2,0,0)` (with `b_x = 2`, `b_z = 0`, both with a
positive factor), and `alpha = 2`, the output is `(-1,0,0,0) ≠ (1,0,0,0)`:
`q` is not returned unchanged. -/
theorem gradient_descent_aligned_counterexample :
    qnorm ⟨1, 0, 0, 0⟩ = 1
    ∧ (∃ c : ℝ, 0 < c ∧ (⟨0, 0, 1⟩ : Vec3) = c • rotT ⟨1, 0, 0, 0⟩ ghat)
    ∧ (∃ c : ℝ, 0 < c ∧ (⟨1, 0, 0⟩ : Vec3) = c • rotT ⟨1, 0, 0, 0⟩ (bref 2 0))
    ∧ gradient_descent 0 0 1 2 2 0 1 0 0 1 0 0 0 = ⟨-1, 0, 0, 0⟩
    ∧ gradient_descent 0 0 1 2 2 0 1 0 0 1 0 0 0 ≠ ⟨1, 0, 0, 0⟩ := by
  refine ⟨qnorm_id, ⟨(1 : ℝ), by norm_num, by ext <;> norm_num [rotT, ghat]⟩,
    ⟨(1 / 2 : ℝ), by norm_num, by ext <;> norm_num [rotT, bref]⟩, gd_c6, ?_⟩
  rw [gd_c6]
  intro h
  exact absurd (by simpa using congrArg Quat.q0 h) (by norm_num)

/-- C2: `gradient_descent` computes the closed-form Jacobian-transpose
product correctly — twice each `gradRaw` component is the true partial
derivative of the misalignment objective `‖f_g‖² + ‖f_b‖²` (with
`f_g = R(q)ᵗ·[0,0,1] − â`, `f_b = R(q)ᵗ·[b_x,0,b_z] − m̂`), i.e.
`gradRaw = Jᵗ·[f_g; f_b]` — and on nondegenerate inputs returns the
renormalization of `q − alpha · (Δq normalized)`. -/
theorem gradient_descent_spec (a m : Vec3) (alpha b_x b_z : ℝ) (q : Quat)
    (ha : vnorm a ≠ 0) (hm : vnorm m ≠ 0)
    (hg : qnorm (gradRaw a b_x b_z m q) ≠ 0) :
    (HasDerivAt (fun t => alignErr a b_x b_z m ⟨t, q.q1, q.q2, q.q3⟩)
        (2 * (gradRaw a b_x b_z m q).q0) q.q0
      ∧ HasDerivAt (fun t => alignErr a b_x b_z m ⟨q.q0, t, q.q2, q.q3⟩)
        (2 * (gradRaw a b_x b_z m q).q1) q.q1
      ∧ HasDerivAt (fun t => alignErr a b_x b_z m ⟨q.q0, q.q1, t, q.q3⟩)
        (2 * (gradRaw a b_x b_z m q).q2) q.q2
      ∧ HasDerivAt (fun t => alignErr a b_x b_z m ⟨q.q0, q.q1, q.q2, t⟩)
        (2 * (gradRaw a b_x b_z m q).q3) q.q3)
    ∧ gradient_descent a.x a.y a.z alpha b_x b_z m.x m.y m.z q.q0 q.q1 q.q2 q.q3
      = qnormalize (q - alpha • qnormalize (gradRaw a b_x b_z m q)) := by
  refine ⟨⟨alignErr_deriv0 a b_x b_z m q, alignErr_deriv1 a b_x b_z m q,
    alignErr_deriv2 a b_x b_z m q, alignErr_deriv3 a b_x b_z m q⟩, ?_⟩
  show qnormalize (q - alpha • correctionDir a b_x b_z m q)
    = qnormalize (q - alpha • qnormalize (gradRaw a b_x b_z m q))
  rw [correctionDir, if_neg (not_or.mpr ⟨ha, hm⟩), if_neg hg]

/-- Witness for C2 at `q = (1,0,0,0)`, `a = (0,0,-1)`, `m = (-1,0,0)`,
`b = (1,0)`, `alpha = 1/2`, where the gradient is `(8,0,0,0) ≠ 0`. -/
theorem gradient_descent_spec_witness :
    gradient_descent 0 0 (-1) (1 / 2) 1 0 (-1) 0 0 1 0 0 0
      = qnormalize (⟨1, 0, 0, 0⟩
          - (1 / 2 : ℝ) • qnormalize (gradRaw ⟨0, 0, -1⟩ 1 0 ⟨-1, 0, 0⟩ ⟨1, 0, 0, 0⟩)) :=
  (gradient_descent_spec ⟨0, 0, -1⟩ ⟨-1, 0, 0⟩ (1 / 2) 1 0 ⟨1, 0, 0, 0⟩
    (by norm_num [vnorm_val_an]) (by norm_num [vnorm_val_mn])
    (by rw [grad_e1, qnorm_8]; norm_num)).2

/-- C7 (amended): the normalized correction `Δq` is a strict descent direction
for the misalignment objective: the inner product of the objective's gradient
(whose components the `HasDerivAt` facts certify) with the applied step
`−alpha · Δq` equals `−2·alpha·‖Jᵗ[f_g;f_b]‖ < 0` whenever the raw gradient is
nonzero; a full fixed-size step, however, need not strictly decrease the
objective. -/
theorem gradient_descent_descent_direction (a m : Vec3) (alpha b_x b_z : ℝ) (q : Quat)
    (halpha : 0 < alpha) (hg : gradRaw a b_x b_z m q ≠ 0) :
    (HasDerivAt (fun t => alignErr a b_x b_z m ⟨t, q.q1, q.q2, q.q3⟩)
        (2 * (gradRaw a b_x b_z m q).q0) q.q0
      ∧ HasDerivAt (fun t => alignErr a b_x b_z m ⟨q.q0, t, q.q2, q.q3⟩)
        (2 * (gradRaw a b_x b_z m q).q1) q.q1
      ∧ HasDerivAt (fun t => alignErr a b_x b_z m ⟨q.q0, q.q1, t, q.q3⟩)
        (2 * (gradRaw a b_x b_z m q).q2) q.q2
      ∧ HasDerivAt (fun t => alignErr a b_x b_z m ⟨q.q0, q.q1, q.q2, t⟩)
        (2 * (gradRaw a b_x b_z m q).q3) q.q3)
    ∧ 2 * (gradRaw a b_x b_z m q).q0
          * (-alpha * (qnormalize (gradRaw a b_x b_z m q)).q0)
        + 2 * (gradRaw a b_x b_z m q).q1
          * (-alpha * (qnormalize (gradRaw a b_x b_z m q)).q1)
        + 2 * (gradRaw a b_x b_z m q).q2
          * (-alpha * (qnormalize (gradRaw a b_x b_z m q)).q2)
        + 2 * (gradRaw a b_x b_z m q).q3
          * (-alpha * (qnormalize (gradRaw a b_x b_z m q)).q3)
      = -(2 * alpha * qnorm (gradRaw a b_x b_z m q))
    ∧ -(2 * alpha * qnorm (gradRaw a b_x b_z m q)) < 0 := by
  have hn : qnorm (gradRaw a b_x b_z m q) ≠ 0 :=
    fun h => hg ((qnorm_eq_zero_iff _).mp h)
  have hpos : 0 < qnorm (gradRaw a b_x b_z m q) :=
    lt_of_le_of_ne (Real.sqrt_nonneg _) (Ne.symm hn)
  refine ⟨⟨alignErr_deriv0 a b_x b_z m q, alignErr_deriv1 a b_x b_z m q,
    alignErr_deriv2 a b_x b_z m q, alignErr_deriv3 a b_x b_z m q⟩, ?_, ?_⟩
  · have hS : (0 : ℝ) ≤ (gradRaw a b_x b_z m q).q0 ^ 2 + (gradRaw a b_x b_z m q).q1 ^ 2
        + (gradRaw a b_x b_z m q).q2 ^ 2 + (gradRaw a b_x b_z m q).q3 ^ 2 := by positivity
    have hsq : (gradRaw a b_x b_z m q).q0 ^ 2 + (gradRaw a b_x b_z m q).q1 ^ 2
        + (gradRaw a b_x b_z m q).q2 ^ 2 + (gradRaw a b_x b_z m q).q3 ^ 2
        = qnorm (gradRaw a b_x b_z m q) ^ 2 := (Real.sq_sqrt hS).symm
    rw [qnormalize, if_neg hn]
    show 2 * (gradRaw a b_x b_z m q).q0
        * (-alpha * ((gradRaw a b_x b_z m q).q0 / qnorm (gradRaw a b_x b_z m q)))
      + 2 * (gradRaw a b_x b_z m q).q1
        * (-alpha * ((gradRaw a b_x b_z m q).q1 / qnorm (gradRaw a b_x b_z m q)))
      + 2 * (gradRaw a b_x b_z m q).q2
        * (-alpha * ((gradRaw a b_x b_z m q).q2 / qnorm (gradRaw a b_x b_z m q)))
      + 2 * (gradRaw a b_x b_z m q).q3
        * (-alpha * ((gradRaw a b_x b_z m q).q3 / qnorm (gradRaw a b_x b_z m q)))
      = -(2 * alpha * qnorm (gradRaw a b_x b_z m q))
    calc 2 * (gradRaw a b_x b_z m q).q0
          * (-alpha * ((gradRaw a b_x b_z m q).q0 / qnorm (gradRaw a b_x b_z m q)))
        + 2 * (gradRaw a b_x b_z m q).q1
          * (-alpha * ((gradRaw a b_x b_z m q).q1 / qnorm (gradRaw a b_x b_z m q)))
        + 2 * (gradRaw a b_x b_z m q).q2
          * (-alpha * ((gradRaw a b_x b_z m q).q2 / qnorm (gradRaw a b_x b_z m q)))
        + 2 * (gradRaw a b_x b_z m q).q3
          * (-alpha * ((gradRaw a b_x b_z m q).q3 / qnorm (gradRaw a b_x b_z m q)))
          = -(2 * alpha) * (((gradRaw a b_x b_z m q).q0 ^ 2 + (gradRaw a b_x b_z m q).q1 ^ 2
              + (gradRaw a b_x b_z m q).q2 ^ 2 + (gradRaw a b_x b_z m q).q3 ^ 2)
              / qnorm (gradRaw a b_x b_z m q)) := by
            ring
      _ = -(2 * alpha) * (qnorm (gradRaw a b_x b_z m q) ^ 2
            / qnorm (gradRaw a b_x b_z m q)) := by rw [hsq]
      _ = -(2 * alpha * qnorm (gradRaw a b_x b_z m q)) := by
            rw [sq, mul_div_assoc, div_self hn, mul_one]
            ring
  · have h2 : 0 < 2 * alpha * qnorm (gradRaw a b_x b_z m q) := by
      have := mul_pos (by linarith : (0 : ℝ) < 2 * alpha) hpos
      linarith
    linarith

/-- Witness for C7 (amended) at `q = (1,0,0,0)`, `a = (0,0,-1)`,
`m = (-1,0,0)`, `b = (1,0)`, `alpha = 1/2`: the directional derivative of the
objective along the applied step is negative. -/
theorem gradient_descent_descent_direction_witness :
    -(2 * (1 / 2) * qnorm (gradRaw ⟨0, 0, -1⟩ 1 0 ⟨-1, 0, 0⟩ ⟨1, 0, 0, 0⟩)) < 0 :=
  (gradient_descent_descent_direction ⟨0, 0, -1⟩ ⟨-1, 0, 0⟩ (1 / 2) 1 0 ⟨1, 0, 0, 0⟩
    (by norm_num)
    (by rw [grad_e1]; exact quat_mk_ne_zero_q0 8 0 0 0 (by norm_num))).2.2

/-- Counterexample for C7 as stated: at `q = (1,0,0,0)` (misaligned: the
objective value is `8 ≠ 0`) with `a = (0,0,-1)`, `m = (-1,0,0)`, `b = (1,0)`,
`alpha = 1/2`, one application of `gradient_descent` returns `q` itself, so
the misalignment objective does not strictly decrease. -/
theorem gradient_descent_monotonic_counterexample :
    alignErr ⟨0, 0, -1⟩ 1 0 ⟨-1, 0, 0⟩ ⟨1, 0, 0, 0⟩ = 8
    ∧ gradient_descent 0 0 (-1) (1 / 2) 1 0 (-1) 0 0 1 0 0 0 = ⟨1, 0, 0, 0⟩
    ∧ ¬ alignErr ⟨0, 0, -1⟩ 1 0 ⟨-1, 0, 0⟩
          (gradient_descent 0 0 (-1) (1 / 2) 1 0 (-1) 0 0 1 0 0 0)
        < alignErr ⟨0, 0, -1⟩ 1 0 ⟨-1, 0, 0⟩ ⟨1, 0, 0, 0⟩ := by
  refine ⟨alignErr_e1, gd_c7, ?_⟩
  rw [gd_c7]
  exact lt_irrefl _

/-- C1 (amended): for a unit quaternion `q`, `gradient_descent` (for nonzero
`a` and `m`) and `madgwick` (for all inputs, sensor dropout included) produce
a unit-norm quaternion, provided the pre-renormalization update
(`q − alpha·Δq`, resp. `q + q̇·dt`) is nonzero; when that update cancels to
the zero quaternion the normalization guard returns the zero quaternion
instead. -/
theorem step_preserves_unit_norm (a m w : Vec3) (alpha b_x b_z beta dt : ℝ) (q : Quat)
    (hq : qnorm q = 1) :
    (a ≠ 0 → m ≠ 0 → q - alpha • correctionDir a b_x b_z m q ≠ 0 →
      qnorm (gradient_descent a.x a.y a.z alpha b_x b_z m.x m.y m.z
        q.q0 q.q1 q.q2 q.q3) = 1)
    ∧ (q + dt • ((1 / 2 : ℝ) • qmul q ⟨0, w.x, w.y, w.z⟩
          + (-beta) • correctionDir a b_x b_z m q) ≠ 0 →
      qnorm (madgwick a.x a.y a.z b_x b_z beta dt m.x m.y m.z
        q.q0 q.q1 q.q2 q.q3 w.x w.y w.z) = 1) := by
  constructor
  · intro ha hm h1
    show qnorm (qnormalize (q - alpha • correctionDir a b_x b_z m q)) = 1
    exact qnorm_qnormalize _ h1
  · intro h2
    show qnorm (qnormalize (q + dt • ((1 / 2 : ℝ) • qmul q ⟨0, w.x, w.y, w.z⟩
        + (-beta) • correctionDir a b_x b_z m q))) = 1
    exact qnorm_qnormalize _ h2

/-- Witness for C1 (amended): `gradient_descent` at `q = (1,0,0,0)`,
`a = (0,0,1)`, `m = (1,0,0)`, `b = (1,0)`, `alpha = 1/10`, and `madgwick` at
the dropout input `a = m = (0,0,0)`, `q = (1,0,0,0)`, `w = (0,0,1)`,
`dt = 1/100`, `beta = 0`. -/
theorem step_preserves_unit_norm_witness :
    qnorm (gradient_descent 0 0 1 (1 / 10) 1 0 1 0 0 1 0 0 0) = 1
    ∧ qnorm (madgwick 0 0 0 1 0 0 (1 / 100) 0 0 0 1 0 0 0 0 0 1) = 1 := by
  constructor
  · refine (step_preserves_unit_norm ⟨0, 0, 1⟩ ⟨1, 0, 0⟩ ⟨0, 0, 1⟩ (1 / 10) 1 0 1 (1 / 100)
      ⟨1, 0, 0, 0⟩ qnorm_id).1
      (vec3_mk_ne_zero_z 0 0 1 (by norm_num))
      (vec3_mk_ne_zero_x 1 0 0 (by norm_num)) ?_
    rw [corr_e2]
    have h : (⟨1, 0, 0, 0⟩ : Quat) - (1 / 10 : ℝ) • (0 : Quat) = ⟨1, 0, 0, 0⟩ := by
      ext <;> norm_num
    rw [h]
    exact quat_mk_ne_zero_q0 1 0 0 0 (by norm_num)
  · refine (step_preserves_unit_norm 0 0 ⟨0, 0, 1⟩ 1 1 0 0 (1 / 100)
      ⟨1, 0, 0, 0⟩ qnorm_id).2 ?_
    show (⟨1, 0, 0, 0⟩ : Quat) + (1 / 100 : ℝ) • ((1 / 2 : ℝ)
        • qmul ⟨1, 0, 0, 0⟩ ⟨0, 0, 0, 1⟩
        + (-(0 : ℝ)) • correctionDir 0 1 0 0 ⟨1, 0, 0, 0⟩) ≠ 0
    rw [corr_dropout 0 1 0 0 ⟨1, 0, 0, 0⟩ (Or.inl vnorm_zero)]
    have h : (⟨1, 0, 0, 0⟩ : Quat) + (1 / 100 : ℝ) • ((1 / 2 : ℝ)
          • qmul ⟨1, 0, 0, 0⟩ ⟨0, 0, 0, 1⟩ + (-(0 : ℝ)) • (0 : Quat))
        = ⟨1, 0, 0, 1 / 200⟩ := by
      ext <;> norm_num [qmul]
    rw [h]
    exact quat_mk_ne_zero_q0 1 0 0 (1 / 200) (by norm_num)

/-- Counterexample for C1 as stated: at the unit quaternion `q = (1,0,0,0)`
with nonzero `a = (0,0,-1)`, `m = (-1,0,0)`, `b = (1,0)` and `alpha = 1`, the
update `q − alpha·Δq` cancels to zero and the output of `gradient_descent` has
norm `0`, not `1`. -/
theorem step_preserves_unit_norm_counterexample :
    qnorm ⟨1, 0, 0, 0⟩ = 1
    ∧ (⟨0, 0, -1⟩ : Vec3) ≠ 0
    ∧ (⟨-1, 0, 0⟩ : Vec3) ≠ 0
    ∧ qnorm (gradient_descent 0 0 (-1) 1 1 0 (-1) 0 0 1 0 0 0) = 0
    ∧ qnorm (gradient_descent 0 0 (-1) 1 1 0 (-1) 0 0 1 0 0 0) ≠ 1 := by
  refine ⟨qnorm_id, vec3_mk_ne_zero_z 0 0 (-1) (by norm_num),
    vec3_mk_ne_zero_x (-1) 0 0 (by norm_num), ?_, ?_⟩
  · rw [gd_c1, qnorm_zero]
  · rw [gd_c1, qnorm_zero]
    norm_num

/-- C3: `madgwick` returns the renormalization of
`q + (q̇_gyro + q̇_correction)·dt` with `q̇_gyro = (1/2)·q ⊗ [0,w]` (the
Hamilton product, certified against Mathlib's quaternion algebra) and
`q̇_correction = −beta·Δq`, where `Δq` is the same normalized correction
direction `correctionDir` that `gradient_descent` applies. -/
theorem madgwick_spec (a m w : Vec3) (b_x b_z beta dt alpha : ℝ) (q : Quat) :
    madgwick a.x a.y a.z b_x b_z beta dt m.x m.y m.z q.q0 q.q1 q.q2 q.q3 w.x w.y w.z
      = qnormalize (q + dt • ((1 / 2 : ℝ) • qmul q ⟨0, w.x, w.y, w.z⟩
          + (-beta) • correctionDir a b_x b_z m q))
    ∧ gradient_descent a.x a.y a.z alpha b_x b_z m.x m.y m.z q.q0 q.q1 q.q2 q.q3
      = qnormalize (q - alpha • correctionDir a b_x b_z m q)
    ∧ (∀ p r : Quat, toHQ (qmul p r) = toHQ p * toHQ r) := by
  refine ⟨rfl, rfl, fun p r => ?_⟩
  ext <;>
    simp only [toHQ, qmul, Quaternion.mul_re, Quaternion.mul_imI, Quaternion.mul_imJ,
      Quaternion.mul_imK]

/-- C4: when `a` (or `m`) is the zero vector, `madgwick` skips the correction
term and performs pure gyroscope integration. -/
theorem madgwick_gyro_fallback (a m w : Vec3) (b_x b_z beta dt : ℝ) (q : Quat)
    (h : a = 0 ∨ m = 0) :
    madgwick a.x a.y a.z b_x b_z beta dt m.x m.y m.z q.q0 q.q1 q.q2 q.q3 w.x w.y w.z
      = qnormalize (q + dt • ((1 / 2 : ℝ) • qmul q ⟨0, w.x, w.y, w.z⟩)) := by
  have hv : vnorm a = 0 ∨ vnorm m = 0 := by
    rcases h with h | h
    · exact Or.inl (by rw [h, vnorm_zero])
    · exact Or.inr (by rw [h, vnorm_zero])
  have hcorr := corr_dropout a b_x b_z m q hv
  show qnormalize (q + dt • ((1 / 2 : ℝ) • qmul q ⟨0, w.x, w.y, w.z⟩
      + (-beta) • correctionDir a b_x b_z m q)) = _
  rw [hcorr, qsmul_zero, qadd_zero]

/-- Witness for C4 at the concrete scenario of the spec: `q = (1,0,0,0)`,
`w = (0,0,1)`, `dt = 1/100`, `beta = 0`, `a = m = (0,0,0)`; the output is the
normalization of `(1, 0, 0, 1/200)`. -/
theorem madgwick_gyro_fallback_witness :
    madgwick 0 0 0 1 0 0 (1 / 100) 0 0 0 1 0 0 0 0 0 1 = qnormalize ⟨1, 0, 0, 1 / 200⟩ := by
  calc madgwick 0 0 0 1 0 0 (1 / 100) 0 0 0 1 0 0 0 0 0 1
      = qnormalize (⟨1, 0, 0, 0⟩ + (1 / 100 : ℝ)
          • ((1 / 2 : ℝ) • qmul ⟨1, 0, 0, 0⟩ ⟨0, 0, 0, 1⟩)) :=
        madgwick_gyro_fallback 0 0 ⟨0, 0, 1⟩ 1 0 0 (1 / 100) ⟨1, 0, 0, 0⟩ (Or.inl rfl)
    _ = qnormalize ⟨1, 0, 0, 1 / 200⟩ := by
        congr 1
        ext <;> norm_num [qmul]

/-- Parameter names of `gradient_descent`, in declaration order, from
src/autogen.h line 13. -/
def gradient_descent_params : List String :=
  ["a_x", "a_y", "a_z", "alpha", "b_x", "b_z", "m_x", "m_y", "m_z",
   "q_0", "q_1", "q_2", "q_3", "out_1694602195383427280"]

/-- Parameter names of `madgwick`, in declaration order, from
src/autogen.h line 14. -/
def madgwick_params : List String :=
  ["a_x", "a_y", "a_z", "b_x", "b_z", "beta", "dt", "m_x", "m_y", "m_z",
   "q_0", "q_1", "q_2", "q_3", "w_x", "w_y", "w_z", "out_5344619444326987472"]

/-- The functions declared by src/autogen.h, in order. -/
def header_functions : List String := ["gradient_descent", "madgwick"]

/-- Return type of `gradient_descent` in src/autogen.h. -/
def gradient_descent_return_type : String := "void"

/-- Return type of `madgwick` in src/autogen.h. -/
def madgwick_return_type : String := "void"

/-- Parameter types of `gradient_descent`, in declaration order, from
src/autogen.h line 13. -/
def gradient_descent_param_types : List String :=
  ["double", "double", "double", "double", "double", "double", "double",
   "double", "double", "double", "double", "double", "double", "double*"]

/-- Parameter types of `madgwick`, in declaration order, from
src/autogen.h line 14. -/
def madgwick_param_types : List String :=
  ["double", "double", "double", "double", "double", "double", "double",
   "double", "double", "double", "double", "double", "double", "double",
   "double", "double", "double", "double*"]

/-- Modelled from the spec: the quaternion result delivered as the four
doubles written to the out buffer. -/
def quatOut (q : Quat) : Fin 4 → ℝ := ![q.q0, q.q1, q.q2, q.q3]

/-- Modelled from the spec: calling semantics of `gradient_descent` — the out
buffer after the call holds exactly the four components of the resulting
quaternion, whatever it held before. -/
def gradient_descent_run (a_x a_y a_z alpha b_x b_z m_x m_y m_z q_0 q_1 q_2 q_3 : ℝ)
    (out : Fin 4 → ℝ) : Fin 4 → ℝ :=
  quatOut (gradient_descent a_x a_y a_z alpha b_x b_z m_x m_y m_z q_0 q_1 q_2 q_3)

/-- Modelled from the spec: calling semantics of `madgwick` — the out buffer
after the call holds exactly the four components of the resulting quaternion,
whatever it held before. -/
def madgwick_run (a_x a_y a_z b_x b_z beta dt m_x m_y m_z q_0 q_1 q_2 q_3 w_x w_y w_z : ℝ)
    (out : Fin 4 → ℝ) : Fin 4 → ℝ :=
  quatOut (madgwick a_x a_y a_z b_x b_z beta dt m_x m_y m_z q_0 q_1 q_2 q_3 w_x w_y w_z)

/-- `gradient_descent` on its bundled argument tuple. -/
def gradient_descent_t :
    ℝ × ℝ × ℝ × ℝ × ℝ × ℝ × ℝ × ℝ × ℝ × ℝ × ℝ × ℝ × ℝ → Quat
  | (a_x, a_y, a_z, alpha, b_x, b_z, m_x, m_y, m_z, q_0, q_1, q_2, q_3) =>
    gradient_descent a_x a_y a_z alpha b_x b_z m_x m_y m_z q_0 q_1 q_2 q_3

/-- `madgwick` on its bundled argument tuple. -/
def madgwick_t :
    ℝ × ℝ × ℝ × ℝ × ℝ × ℝ × ℝ × ℝ × ℝ × ℝ × ℝ × ℝ × ℝ × ℝ × ℝ × ℝ × ℝ → Quat
  | (a_x, a_y, a_z, b_x, b_z, beta, dt, m_x, m_y, m_z, q_0, q_1, q_2, q_3, w_x, w_y, w_z) =>
    madgwick a_x a_y a_z b_x b_z beta dt m_x m_y m_z q_0 q_1 q_2 q_3 w_x w_y w_z

/-- `gradient_descent_run` on its bundled argument tuple. -/
def gradient_descent_run_t
    (p : ℝ × ℝ × ℝ × ℝ × ℝ × ℝ × ℝ × ℝ × ℝ × ℝ × ℝ × ℝ × ℝ)
    (out : Fin 4 → ℝ) : Fin 4 → ℝ :=
  quatOut (gradient_descent_t p)

/-- `madgwick_run` on its bundled argument tuple. -/
def madgwick_run_t
    (p : ℝ × ℝ × ℝ × ℝ × ℝ × ℝ × ℝ × ℝ × ℝ × ℝ × ℝ × ℝ × ℝ × ℝ × ℝ × ℝ × ℝ)
    (out : Fin 4 → ℝ) : Fin 4 → ℝ :=
  quatOut (madgwick_t p)

/-- C8: the public call surface is exactly the two declared functions, their
scalar arguments appear in exactly the specified order (with the out pointer
last), and the output is a quaternion of four doubles. -/
theorem call_surface_spec :
    header_functions = ["gradient_descent", "madgwick"]
    ∧ gradient_descent_params
      = ["a_x", "a_y", "a_z", "alpha", "b_x", "b_z", "m_x", "m_y", "m_z",
         "q_0", "q_1", "q_2", "q_3"] ++ ["out_1694602195383427280"]
    ∧ madgwick_params
      = ["a_x", "a_y", "a_z", "b_x", "b_z", "beta", "dt", "m_x", "m_y", "m_z",
         "q_0", "q_1", "q_2", "q_3", "w_x", "w_y", "w_z"] ++ ["out_5344619444326987472"]
    ∧ (∀ q : Quat, (List.ofFn (quatOut q)).length = 4) :=
  ⟨rfl, rfl, rfl, fun _ => by simp⟩

/-- C9: both functions are deterministic and pure — equal argument tuples give
equal results, and a previous call leaves nothing behind that can influence a
later call's result (the out buffer produced by any prior call is overwritten
in full). -/
theorem steps_pure :
    (∀ p q : ℝ × ℝ × ℝ × ℝ × ℝ × ℝ × ℝ × ℝ × ℝ × ℝ × ℝ × ℝ × ℝ,
      p = q → gradient_descent_t p = gradient_descent_t q)
    ∧ (∀ p q : ℝ × ℝ × ℝ × ℝ × ℝ × ℝ × ℝ × ℝ × ℝ × ℝ × ℝ × ℝ × ℝ × ℝ × ℝ × ℝ × ℝ,
      p = q → madgwick_t p = madgwick_t q)
    ∧ (∀ (p r : ℝ × ℝ × ℝ × ℝ × ℝ × ℝ × ℝ × ℝ × ℝ × ℝ × ℝ × ℝ × ℝ) (out : Fin 4 → ℝ),
      gradient_descent_run_t p (gradient_descent_run_t r out) = gradient_descent_run_t p out)
    ∧ (∀ (p r : ℝ × ℝ × ℝ × ℝ × ℝ × ℝ × ℝ × ℝ × ℝ × ℝ × ℝ × ℝ × ℝ × ℝ × ℝ × ℝ × ℝ)
        (out : Fin 4 → ℝ),
      madgwick_run_t p (madgwick_run_t r out) = madgwick_run_t p out) :=
  ⟨fun p q h => by rw [h], fun p q h => by rw [h], fun _ _ _ => rfl, fun _ _ _ => rfl⟩

/-- Witness for C9: determinism applied at a concrete argument tuple. -/
theorem steps_pure_witness :
    gradient_descent_t (0, 0, 1, 1 / 10, 1, 0, 1, 0, 0, 1, 0, 0, 0)
      = gradient_descent_t (0, 0, 1, 1 / 10, 1, 0, 1, 0, 0, 1, 0, 0, 0) :=
  steps_pure.1 _ _ rfl

/-- C10: both functions return void; the only pointer parameter is the final
out parameter, all other parameters being by-value doubles (so no input
argument is an output); and the result is delivered exclusively by writing all
four components through the out parameter — the buffer after the call holds
exactly the result quaternion, independent of its prior contents. -/
theorem out_param_spec :
    gradient_descent_return_type = "void"
    ∧ madgwick_return_type = "void"
    ∧ gradient_descent_param_types = List.replicate 13 "double" ++ ["double*"]
    ∧ madgwick_param_types = List.replicate 17 "double" ++ ["double*"]
    ∧ (∀ (a_x a_y a_z alpha b_x b_z m_x m_y m_z q_0 q_1 q_2 q_3 : ℝ) (o o' : Fin 4 → ℝ),
        gradient_descent_run a_x a_y a_z alpha b_x b_z m_x m_y m_z q_0 q_1 q_2 q_3 o
          = gradient_descent_run a_x a_y a_z alpha b_x b_z m_x m_y m_z q_0 q_1 q_2 q_3 o')
    ∧ (∀ (a_x a_y a_z b_x b_z beta dt m_x m_y m_z q_0 q_1 q_2 q_3 w_x w_y w_z : ℝ)
        (o : Fin 4 → ℝ),
        madgwick_run a_x a_y a_z b_x b_z beta dt m_x m_y m_z q_0 q_1 q_2 q_3 w_x w_y w_z o
          = quatOut (madgwick a_x a_y a_z b_x b_z beta dt m_x m_y m_z
              q_0 q_1 q_2 q_3 w_x w_y w_z))
    ∧ (∀ (a_x a_y a_z alpha b_x b_z m_x m_y m_z q_0 q_1 q_2 q_3 : ℝ) (o : Fin 4 → ℝ),
        gradient_descent_run a_x a_y a_z alpha b_x b_z m_x m_y m_z q_0 q_1 q_2 q_3 o
          = quatOut (gradient_descent a_x a_y a_z alpha b_x b_z m_x m_y m_z
              q_0 q_1 q_2 q_3)) := by
  refine ⟨rfl, rfl, ?_, ?_, ?_, ?_, ?_⟩
  · decide
  · decide
  · intros
    rfl
  · intros
    rfl
  · intros
    rfl
